import Mathlib

/-!
Verification of the TT_PreProcessing email pipeline: a shallow embedding of
the canonicalization engine, the PII detection/redaction engine, and the
fallback orchestrator (`src/canonicalization.py`, `src/pii_detection.py`,
`src/preprocessing.py`, `src/error_handling.py`, `src/models.py`,
`src/config.py`), together with theorems settling the specification claims.

Text is modelled as `List Char`; Python `re` matching is embedded by a small
backtracking engine covering exactly the constructs the repository's
patterns use (literals, single-character classes with bounded or unbounded
greedy repetition, multiline anchors, word boundaries, top-level
alternation).  Machine-word arithmetic in SHA-256 is `Nat` with explicit
`% 2^32`.  Floating-point confidences are modelled as rationals; no claim
below depends on rounding.
-/

set_option maxRecDepth 8000

namespace TTPre

/-! ### Character predicates (Python semantics) -/

/-- Codepoints accepted by Python's `str.isspace` / stripped by `str.strip`,
and matched by the regex class `\s` on `str` patterns. -/
def pySpaceCodes : List Nat :=
  [0x09, 0x0A, 0x0B, 0x0C, 0x0D, 0x1C, 0x1D, 0x1E, 0x1F, 0x20, 0x85, 0xA0,
   0x1680, 0x2000, 0x2001, 0x2002, 0x2003, 0x2004, 0x2005, 0x2006, 0x2007,
   0x2008, 0x2009, 0x200A, 0x2028, 0x2029, 0x202F, 0x205F, 0x3000]

/-- Python whitespace test (`str.isspace` on a single character, regex `\s`). -/
def pyIsSpace (c : Char) : Bool := pySpaceCodes.contains c.toNat

/-- Codepoints of Unicode general category Zs (Space_Separator), the set
mapped to ASCII space by `_normalize_unicode_whitespace` via
`unicodedata.category(char) == "Zs"`. -/
def zsCodes : List Nat :=
  [0x20, 0xA0, 0x1680, 0x2000, 0x2001, 0x2002, 0x2003, 0x2004, 0x2005,
   0x2006, 0x2007, 0x2008, 0x2009, 0x200A, 0x202F, 0x205F, 0x3000]

/-- Membership in Unicode category Zs. -/
def isZsChar (c : Char) : Bool := zsCodes.contains c.toNat

/-- ASCII lower-casing.  Models Python case folding for `re.IGNORECASE` and
`str.lower` restricted to ASCII; every concrete input evaluated in this file
is ASCII, and no universally quantified theorem below depends on the
behaviour on non-ASCII letters. -/
def asciiLower (c : Char) : Char :=
  if 65 ≤ c.toNat ∧ c.toNat ≤ 90 then Char.ofNat (c.toNat + 32) else c

/-- ASCII upper-casing (see `asciiLower`). -/
def asciiUpper (c : Char) : Char :=
  if 97 ≤ c.toNat ∧ c.toNat ≤ 122 then Char.ofNat (c.toNat - 32) else c

/-- Regex `\w` (ASCII fragment: letters, digits, underscore). -/
def isWordChar (c : Char) : Bool :=
  if (48 ≤ c.toNat ∧ c.toNat ≤ 57) ∨ (65 ≤ c.toNat ∧ c.toNat ≤ 90) ∨
     (97 ≤ c.toNat ∧ c.toNat ≤ 122) ∨ c.toNat = 95 then true else false

/-! ### A Python `re` fragment

The repository's patterns are sequences of: literal strings, anchors
`^` / `$` under `(?m)`, word boundaries `\b`, and greedy single-character
repetitions (`X*`, `X+`, `X?`, `X{m,n}` where `X` is a character class or
a dot).  Alternation occurs only at the top level of a pattern (after
expanding the `(?:a|b)`-groups into full branches, in Python's preference
order).  The engine below implements exactly leftmost-position,
branch-order, greedy-with-backtracking matching, which coincides with
CPython's backtracking `re` on this fragment. -/

/-- One regex item of the embedded fragment. -/
inductive RItem where
  | lit : List Char → RItem
  | cls : (Char → Bool) → Nat → Option Nat → RItem
  | bol : RItem
  | eol : RItem
  | wb : RItem

/-- A compiled pattern: case-insensitivity flag and top-level branches in
Python preference order. -/
structure RPattern where
  ci : Bool
  branches : List (List RItem)

/-- Character comparison under optional `re.IGNORECASE` (ASCII fold). -/
def litCharEq (ci : Bool) (a b : Char) : Bool :=
  a == b || (ci && (asciiLower a == asciiLower b))

/-- Class membership under optional `re.IGNORECASE`: a character matches if
it or one of its case variants is in the class. -/
def clsMatch (ci : Bool) (p : Char → Bool) (c : Char) : Bool :=
  p c || (ci && (p (asciiLower c) || p (asciiUpper c)))

/-- Does the literal `s` begin the suffix `suf`? -/
def litOn (ci : Bool) : List Char → List Char → Bool
  | [], _ => true
  | _ :: _, [] => false
  | c :: cs, d :: ds => litCharEq ci c d && litOn ci cs ds

/-- Advance `k` characters through a suffix, tracking the character just
before the new position. -/
def stepFwd : Nat → Option Char → List Char → Option Char × List Char
  | 0, prev, suf => (prev, suf)
  | _ + 1, prev, [] => (prev, [])
  | k + 1, _, c :: cs => stepFwd k (some c) cs

/-- States reachable by a greedy single-character-class repetition: for each
count `k = 0, 1, …` up to `cap` (or up to the end of the maximal run of
class characters) the `(previous character, remaining suffix, position)`
triple after consuming `k` class characters, in increasing-count order. -/
def runStates (ci : Bool) (p : Char → Bool) :
    Option Char → List Char → Nat → Nat → List (Option Char × List Char × Nat)
  | prev, suf, pos, 0 => [(prev, suf, pos)]
  | prev, suf, pos, cap + 1 =>
    match suf with
    | [] => [(prev, suf, pos)]
    | c :: cs =>
      if clsMatch ci p c then (prev, suf, pos) :: runStates ci p (some c) cs (pos + 1) cap
      else [(prev, suf, pos)]

/-- First successful continuation among candidate repetition states. -/
def firstSome (f : Option Char × List Char × Nat → Option Nat) :
    List (Option Char × List Char × Nat) → Option Nat
  | [] => none
  | st :: sts =>
    match f st with
    | some e => some e
    | none => firstSome f sts

/-- Match a sequence of items against the suffix `suf` of the text starting
at `pos`, where `prev` is the character just before `pos` (`none` at the
start of the text); returns the end position of the (greedy, backtracking)
match, preferring longer repetitions first, exactly as CPython's engine
does on this fragment.  Multiline `^` holds at the start of text or just
after a newline; multiline `$` holds at the end of text or just before a
newline; `\b` holds where word-ness changes. -/
def matchSeq (ci : Bool) : List RItem → Option Char → List Char → Nat → Option Nat
  | [], _, _, pos => some pos
  | RItem.lit s :: rest, prev, suf, pos =>
    if litOn ci s suf then
      let st := stepFwd s.length prev suf
      matchSeq ci rest st.1 st.2 (pos + s.length)
    else none
  | RItem.cls p lo hi :: rest, prev, suf, pos =>
    let cap := match hi with
      | some h => h
      | none => suf.length
    let sts := runStates ci p prev suf pos cap
    firstSome (fun st => matchSeq ci rest st.1 st.2.1 st.2.2)
      ((sts.reverse).take (sts.length - lo))
  | RItem.bol :: rest, prev, suf, pos =>
    if (match prev with | none => true | some c => c == '\n') then
      matchSeq ci rest prev suf pos
    else none
  | RItem.eol :: rest, prev, suf, pos =>
    if (match suf with | [] => true | c :: _ => c == '\n') then
      matchSeq ci rest prev suf pos
    else none
  | RItem.wb :: rest, prev, suf, pos =>
    if (match prev with | none => false | some c => isWordChar c) !=
        (match suf with | [] => false | c :: _ => isWordChar c) then
      matchSeq ci rest prev suf pos
    else none

/-- Try the pattern's branches in order at a fixed position (given the
previous character and the remaining suffix at that position). -/
def matchAt (pat : RPattern) (prev : Option Char) (suf : List Char) (pos : Nat) : Option Nat :=
  pat.branches.findSome? (fun b => matchSeq pat.ci b prev suf pos)

/-- Scan for the leftmost match, advancing one character at a time and
probing at most `fuel` positions. -/
def searchFromAux (pat : RPattern) : Nat → Option Char → List Char → Nat → Option (Nat × Nat)
  | 0, _, _, _ => none
  | fuel + 1, prev, suf, pos =>
    match matchAt pat prev suf pos with
    | some e => some (pos, e)
    | none =>
      match suf with
      | [] => none
      | c :: cs => searchFromAux pat fuel (some c) cs (pos + 1)

/-- Leftmost match at or after `pos` (Python `search`); the scan probes the
positions `pos, …, t.length`, which the fuel value exactly covers. -/
def searchFrom (pat : RPattern) (t : List Char) (pos : Nat) : Option (Nat × Nat) :=
  searchFromAux pat (t.length + 1 - pos)
    (if pos == 0 then none else t[pos - 1]?) (t.drop pos) pos

/-- Iterated non-overlapping matches; after an empty match the scan advances
by one position (Python ≥3.7 `finditer` semantics).  `fuel` bounds the
number of matches; `t.length + 1` always suffices since the scan position
strictly increases. -/
def finditerFrom (pat : RPattern) (t : List Char) : Nat → Nat → List (Nat × Nat)
  | 0, _ => []
  | fuel + 1, pos =>
    match searchFrom pat t pos with
    | none => []
    | some (s, e) => (s, e) :: finditerFrom pat t fuel (if s < e then e else e + 1)

/-- All non-overlapping matches of `pat` in `t` (Python `finditer` spans). -/
def pyFinditer (pat : RPattern) (t : List Char) : List (Nat × Nat) :=
  finditerFrom pat t (t.length + 1) 0

/-- Replace a list of disjoint, left-to-right spans by `repl`, keeping the
text outside them (`pos` is the cursor into `t`). -/
def spliceSpans (t repl : List Char) : List (Nat × Nat) → Nat → List Char
  | [], pos => t.drop pos
  | (s, e) :: rest, pos =>
    (t.drop pos).take (s - pos) ++ repl ++ spliceSpans t repl rest e

/-- Python `pattern.sub(repl, t)` for this fragment: replace every
`finditer` span by `repl`. -/
def pySub (pat : RPattern) (repl t : List Char) : List Char :=
  spliceSpans t repl (pyFinditer pat t) 0

/-! ### Canonicalization engine (`src/canonicalization.py`)

The thirteen `QUOTE_PATTERNS` are transcribed one by one; character classes
come straight from the pattern strings. -/

/-- Exact rational given by numerator and denominator in lowest terms (the
source's float literals such as `0.95` denote these exact values; keeping
the constructor form, rather than `19/20`, lets the kernel evaluate
comparisons and equalities on them). -/
def rat (n : Int) (d : Nat) (h1 : d ≠ 0 := by decide)
    (h2 : n.natAbs.Coprime d := by decide) : ℚ := ⟨n, d, h1, h2⟩

/-- Dot under `(?s)` (DOTALL): any character. -/
def dotAll (_ : Char) : Bool := true

/-- Dot without DOTALL: any character except newline. -/
def dotNoNl (c : Char) : Bool := c != '\n'

/-- Pattern `(?m)^[\s]*>+.*$` (`quote_standard`). -/
def quoteStandardPat : RPattern :=
  ⟨false, [[RItem.bol, RItem.cls pyIsSpace 0 none,
            RItem.cls (fun c => c == '>') 1 none,
            RItem.cls dotNoNl 0 none, RItem.eol]]⟩

/-- Pattern `(?is)Il giorno.{1,200}ha scritto:` (`reply_header_it`). -/
def replyHeaderItPat : RPattern :=
  ⟨true, [[RItem.lit "Il giorno".toList, RItem.cls dotAll 1 (some 200),
           RItem.lit "ha scritto:".toList]]⟩

/-- Pattern `(?is)On.{1,200}wrote:` (`reply_header_en`). -/
def replyHeaderEnPat : RPattern :=
  ⟨true, [[RItem.lit "On".toList, RItem.cls dotAll 1 (some 200),
           RItem.lit "wrote:".toList]]⟩

/-- Pattern `(?is)Da:.{1,300}Oggetto:` (`reply_header_outlook`). -/
def replyHeaderOutlookPat : RPattern :=
  ⟨true, [[RItem.lit "Da:".toList, RItem.cls dotAll 1 (some 300),
           RItem.lit "Oggetto:".toList]]⟩

/-- Pattern `(?m)^[\s]*--[\s]*$` (`signature_separator`). -/
def signatureSeparatorPat : RPattern :=
  ⟨false, [[RItem.bol, RItem.cls pyIsSpace 0 none, RItem.lit "--".toList,
            RItem.cls pyIsSpace 0 none, RItem.eol]]⟩

/-- Pattern `(?m)^[\s]*_{5,50}[\s]*$` (`signature_underline`). -/
def signatureUnderlinePat : RPattern :=
  ⟨false, [[RItem.bol, RItem.cls pyIsSpace 0 none,
            RItem.cls (fun c => c == '_') 5 (some 50),
            RItem.cls pyIsSpace 0 none, RItem.eol]]⟩

/-- Pattern `(?is)Questo messaggio.{1,500}confidenziale`
(`disclaimer_confidential`). -/
def disclaimerConfidentialPat : RPattern :=
  ⟨true, [[RItem.lit "Questo messaggio".toList, RItem.cls dotAll 1 (some 500),
           RItem.lit "confidenziale".toList]]⟩

/-- Pattern `(?is)Informativa privacy.{1,500}GDPR` (`disclaimer_privacy`). -/
def disclaimerPrivacyPat : RPattern :=
  ⟨true, [[RItem.lit "Informativa privacy".toList, RItem.cls dotAll 1 (some 500),
           RItem.lit "GDPR".toList]]⟩

/-- Pattern `(?is)P\.?[\s]?Rispetta l['\']ambiente.{1,200}`
(`disclaimer_environment`); the bracket class `['\']` denotes the
apostrophe (codepoint 39). -/
def disclaimerEnvironmentPat : RPattern :=
  ⟨true, [[RItem.lit "P".toList, RItem.cls (fun c => c == '.') 0 (some 1),
           RItem.cls pyIsSpace 0 (some 1), RItem.lit "Rispetta l".toList,
           RItem.cls (fun c => c == Char.ofNat 39) 1 (some 1),
           RItem.lit "ambiente".toList, RItem.cls dotAll 1 (some 200)]]⟩

/-- Pattern `(?is)Cordiali saluti[,\s]{0,10}` (`closing_formal`). -/
def closingCordialiPat : RPattern :=
  ⟨true, [[RItem.lit "Cordiali saluti".toList,
           RItem.cls (fun c => c == ',' || pyIsSpace c) 0 (some 10)]]⟩

/-- Pattern `(?is)Distinti saluti[,\s]{0,10}` (`closing_formal`). -/
def closingDistintiPat : RPattern :=
  ⟨true, [[RItem.lit "Distinti saluti".toList,
           RItem.cls (fun c => c == ',' || pyIsSpace c) 0 (some 10)]]⟩

/-- Pattern `(?m)^[\s]*-{3,50}[\s]*Forwarded message[\s]*-{3,50}`
(`forward_marker`). -/
def forwardMarkerPat : RPattern :=
  ⟨false, [[RItem.bol, RItem.cls pyIsSpace 0 none,
            RItem.cls (fun c => c == '-') 3 (some 50),
            RItem.cls pyIsSpace 0 none, RItem.lit "Forwarded message".toList,
            RItem.cls pyIsSpace 0 none,
            RItem.cls (fun c => c == '-') 3 (some 50)]]⟩

/-- Pattern `(?m)^[\s]*-{3,50}[\s]*Messaggio inoltrato[\s]*-{3,50}`
(`forward_marker_it`). -/
def forwardMarkerItPat : RPattern :=
  ⟨false, [[RItem.bol, RItem.cls pyIsSpace 0 none,
            RItem.cls (fun c => c == '-') 3 (some 50),
            RItem.cls pyIsSpace 0 none, RItem.lit "Messaggio inoltrato".toList,
            RItem.cls pyIsSpace 0 none,
            RItem.cls (fun c => c == '-') 3 (some 50)]]⟩

/-- The ordered pattern table `COMPILED_PATTERNS` of
`src/canonicalization.py`: (pattern, pattern_type, confidence). -/
def COMPILED_PATTERNS : List (RPattern × String × ℚ) :=
  [(quoteStandardPat, "quote_standard", rat 1 1),
   (replyHeaderItPat, "reply_header_it", rat 19 20),
   (replyHeaderEnPat, "reply_header_en", rat 19 20),
   (replyHeaderOutlookPat, "reply_header_outlook", rat 19 20),
   (signatureSeparatorPat, "signature_separator", rat 1 1),
   (signatureUnderlinePat, "signature_underline", rat 9 10),
   (disclaimerConfidentialPat, "disclaimer_confidential", rat 17 20),
   (disclaimerPrivacyPat, "disclaimer_privacy", rat 17 20),
   (disclaimerEnvironmentPat, "disclaimer_environment", rat 4 5),
   (closingCordialiPat, "closing_formal", rat 9 10),
   (closingDistintiPat, "closing_formal", rat 9 10),
   (forwardMarkerPat, "forward_marker", rat 1 1),
   (forwardMarkerItPat, "forward_marker_it", rat 1 1)]

/-- The `RemovedSection` dataclass of `src/models.py` (audit record of one
removed span).  Its `__post_init__` truncates `content_preview` to 100
characters; `canonicalize_text` additionally slices to 100 before
construction, so the embedding applies the truncation at construction. -/
structure RemovedSection where
  type : String
  span_start : Nat
  span_end : Nat
  content_preview : List Char
  confidence : ℚ
deriving DecidableEq

/-- Step 1 of `canonicalize_text`:
`text.replace("\r\n", "\n").replace("\r", "\n")` as a single left-to-right
pass (the two sequential replaces have exactly this effect). -/
def normalizeLineEndings : List Char → List Char
  | [] => []
  | '\r' :: '\n' :: rest => '\n' :: normalizeLineEndings rest
  | '\r' :: rest => '\n' :: normalizeLineEndings rest
  | c :: rest => c :: normalizeLineEndings rest

/-- Step 2 of `canonicalize_text`: `unicodedata.normalize("NFC", text)`.
NFC is the identity on every text whose characters are all ASCII; every
concrete input evaluated in this file is ASCII, and the embedding models
the normalization as the identity on that fragment. -/
def unicodeNFC (t : List Char) : List Char := t

/-- Step 3 of `canonicalize_text`: `_normalize_unicode_whitespace`, mapping
every category-Zs character to the ASCII space. -/
def normalizeUnicodeWhitespace (t : List Char) : List Char :=
  t.map (fun c => if isZsChar c then ' ' else c)

/-- Python `text.split("\n")`. -/
def splitNl : List Char → List (List Char)
  | [] => [[]]
  | c :: rest =>
    if c == '\n' then [] :: splitNl rest
    else
      match splitNl rest with
      | l :: ls => (c :: l) :: ls
      | [] => [[c]]

/-- Python `"\n".join(lines)`. -/
def joinNl (ls : List (List Char)) : List Char := List.intercalate ['\n'] ls

/-- Python `line.rstrip()`. -/
def pyRstrip (l : List Char) : List Char := (l.reverse.dropWhile pyIsSpace).reverse

/-- Python `line.lstrip()`. -/
def pyLstrip (l : List Char) : List Char := l.dropWhile pyIsSpace

/-- Python `text.strip()`. -/
def pyStrip (l : List Char) : List Char := pyLstrip (pyRstrip l)

/-- Python `re.sub(r" {2,}", " ", text)`: every maximal run of two or more
ASCII spaces becomes a single space (a space followed by a further space is
dropped, keeping the last space of each run). -/
def collapseSpaces : List Char → List Char
  | [] => []
  | [c] => [c]
  | c :: d :: rest =>
    if c == ' ' && d == ' ' then collapseSpaces (d :: rest)
    else c :: collapseSpaces (d :: rest)

/-- Python `re.sub(r"\n{3,}", "\n\n", text)`: every maximal run of three or
more newlines becomes exactly two (a newline followed by two further
newlines is dropped, keeping the last two of each run). -/
def collapseNewlines : List Char → List Char
  | [] => []
  | [c] => [c]
  | [c, d] => [c, d]
  | c :: d :: e :: rest =>
    if c == '\n' && d == '\n' && e == '\n' then collapseNewlines (d :: e :: rest)
    else c :: collapseNewlines (d :: e :: rest)

/-- Step 5 of `canonicalize_text`: `_cleanup_excessive_whitespace`. -/
def cleanupExcessiveWhitespace (t : List Char) : List Char :=
  pyStrip (collapseNewlines (collapseSpaces (joinNl ((splitNl t).map pyRstrip))))

/-- List-level `startswith` against one pattern word. -/
def listStartsWith : List Char → List Char → Bool
  | _, [] => true
  | [], _ :: _ => false
  | a :: as, b :: bs => a == b && listStartsWith as bs

/-- Python `s.startswith(p)`. -/
def strStartsWith (s p : String) : Bool := listStartsWith s.toList p.toList

/-- `pattern_type.startswith(("quote", "reply_header", "forward_marker"))`. -/
def quoteGroup (ptype : String) : Bool :=
  strStartsWith ptype "quote" || strStartsWith ptype "reply_header" ||
    strStartsWith ptype "forward_marker"

/-- `pattern_type.startswith(("signature", "disclaimer", "closing"))`. -/
def signatureGroup (ptype : String) : Bool :=
  strStartsWith ptype "signature" || strStartsWith ptype "disclaimer" ||
    strStartsWith ptype "closing"

/-- RemovedSection built for one match, as in the loop body of
`canonicalize_text` (preview = `text[span_start:span_end][:100]`). -/
def mkRemovedSection (ptype : String) (conf : ℚ) (t : List Char)
    (sp : Nat × Nat) : RemovedSection :=
  { type := ptype, span_start := sp.1, span_end := sp.2,
    content_preview := ((t.drop sp.1).take (sp.2 - sp.1)).take 100,
    confidence := conf }

/-- Step 4 of `canonicalize_text`: the pattern loop.  Each entry carries the
pattern triple and a Boolean telling whether `safe_regex_finditer` raises
`RegexTimeoutError` for it on this invocation (the wall-clock watchdog is
the only source of that exception and is not a function of the text alone,
so it enters the embedding as an oracle).  A timed-out pattern is skipped
exactly as the `except RegexTimeoutError: continue` handler does; a
flag-disabled group is skipped exactly as the two `continue` guards do. -/
def applyPatterns (rq rs : Bool) :
    List ((RPattern × String × ℚ) × Bool) → List Char → List RemovedSection →
      List Char × List RemovedSection
  | [], t, acc => (t, acc)
  | (entry, timedOut) :: rest, t, acc =>
    if !rq && quoteGroup entry.2.1 then applyPatterns rq rs rest t acc
    else if !rs && signatureGroup entry.2.1 then applyPatterns rq rs rest t acc
    else if timedOut then applyPatterns rq rs rest t acc
    else
      let ms := pyFinditer entry.1 t
      applyPatterns rq rs rest (spliceSpans t ['\n'] ms 0)
        (acc ++ ms.map (mkRemovedSection entry.2.1 entry.2.2 t))

/-- Step 5 and the final return of `canonicalize_text`: clean up the text
component and return the pair. -/
def canonPost (res : List Char × List RemovedSection) :
    List Char × List RemovedSection :=
  (cleanupExcessiveWhitespace res.1, res.2)

/-- `canonicalize_text(text, remove_quotes, remove_signatures)` of
`src/canonicalization.py`.  `timesOut i` tells whether the watchdog fires
while pattern `i` of `COMPILED_PATTERNS` is matched (see `applyPatterns`);
all other steps of the function are total, so the embedding returns the
result pair directly. -/
def canonicalize_text (timesOut : Nat → Bool) (text : List Char)
    (remove_quotes remove_signatures : Bool) :
    List Char × List RemovedSection :=
  let t1 := normalizeLineEndings text
  let t2 := unicodeNFC t1
  let t3 := normalizeUnicodeWhitespace t2
  let entries := COMPILED_PATTERNS.enum.map (fun p => (p.2, timesOut p.1))
  canonPost (applyPatterns remove_quotes remove_signatures entries t3 [])

/-- `canonicalize_text` with the default flags and no watchdog timeout —
the call shape used by `preprocess_email` and by the repository's tests. -/
def canonicalizeNoTimeouts (text : List Char) : List Char × List RemovedSection :=
  canonicalize_text (fun _ => false) text true true

/-! ### UTF-8 and SHA-256 (for `_hash_pii` and `_compute_body_hash`)

SHA-256 is implemented over `Nat` byte and 32-bit word values with explicit
`% 2^32` reductions (FIPS 180-4). -/

/-- UTF-8 encoding of one character. -/
def utf8Char (c : Char) : List Nat :=
  let n := c.toNat
  if n < 0x80 then [n]
  else if n < 0x800 then
    [0xC0 ||| (n >>> 6), 0x80 ||| (n &&& 0x3F)]
  else if n < 0x10000 then
    [0xE0 ||| (n >>> 12), 0x80 ||| ((n >>> 6) &&& 0x3F), 0x80 ||| (n &&& 0x3F)]
  else
    [0xF0 ||| (n >>> 18), 0x80 ||| ((n >>> 12) &&& 0x3F),
     0x80 ||| ((n >>> 6) &&& 0x3F), 0x80 ||| (n &&& 0x3F)]

/-- Python `s.encode("utf-8")` as a byte list. -/
def utf8 (s : List Char) : List Nat := (s.map utf8Char).flatten

/-- Reduction to a 32-bit word. -/
def w32 (n : Nat) : Nat := n % 4294967296

/-- Right rotation of a 32-bit word. -/
def rotr (k x : Nat) : Nat := w32 ((x >>> k) ||| (x <<< (32 - k)))

/-- SHA-256 round constants. -/
def shaK : List Nat :=
  [0x428A2F98, 0x71374491, 0xB5C0FBCF, 0xE9B5DBA5, 0x3956C25B, 0x59F111F1,
   0x923F82A4, 0xAB1C5ED5, 0xD807AA98, 0x12835B01, 0x243185BE, 0x550C7DC3,
   0x72BE5D74, 0x80DEB1FE, 0x9BDC06A7, 0xC19BF174, 0xE49B69C1, 0xEFBE4786,
   0x0FC19DC6, 0x240CA1CC, 0x2DE92C6F, 0x4A7484AA, 0x5CB0A9DC, 0x76F988DA,
   0x983E5152, 0xA831C66D, 0xB00327C8, 0xBF597FC7, 0xC6E00BF3, 0xD5A79147,
   0x06CA6351, 0x14292967, 0x27B70A85, 0x2E1B2138, 0x4D2C6DFC, 0x53380D13,
   0x650A7354, 0x766A0ABB, 0x81C2C92E, 0x92722C85, 0xA2BFE8A1, 0xA81A664B,
   0xC24B8B70, 0xC76C51A3, 0xD192E819, 0xD6990624, 0xF40E3585, 0x106AA070,
   0x19A4C116, 0x1E376C08, 0x2748774C, 0x34B0BCB5, 0x391C0CB3, 0x4ED8AA4A,
   0x5B9CCA4F, 0x682E6FF3, 0x748F82EE, 0x78A5636F, 0x84C87814, 0x8CC70208,
   0x90BEFFFA, 0xA4506CEB, 0xBEF9A3F7, 0xC67178F2]

/-- SHA-256 initial hash state. -/
def shaH0 : List Nat :=
  [0x6A09E667, 0xBB67AE85, 0x3C6EF372, 0xA54FF53A,
   0x510E527F, 0x9B05688C, 0x1F83D9AB, 0x5BE0CD19]

/-- Big-endian byte encoding of `n` in `k` bytes. -/
def beBytes : Nat → Nat → List Nat
  | 0, _ => []
  | k + 1, n => beBytes k (n >>> 8) ++ [n &&& 0xFF]

/-- SHA-256 message padding: `0x80`, zero fill to 56 mod 64, then the bit
length in 8 big-endian bytes. -/
def sha256Pad (msg : List Nat) : List Nat :=
  msg ++ [0x80] ++ List.replicate ((64 - ((msg.length + 9) % 64)) % 64) 0 ++
    beBytes 8 (8 * msg.length)

/-- Split a byte list into 64-byte chunks, with fuel bounding the chunk
count (each step consumes at least one byte, so `l.length` suffices). -/
def chunks64Aux : Nat → List Nat → List (List Nat)
  | 0, _ => []
  | _, [] => []
  | fuel + 1, a :: as => ((a :: as).take 64) :: chunks64Aux fuel ((a :: as).drop 64)

/-- Split a byte list into 64-byte chunks. -/
def chunks64 (l : List Nat) : List (List Nat) := chunks64Aux l.length l

/-- Big-endian 32-bit word from four bytes. -/
def beWord (b : List Nat) : Nat := b.foldl (fun acc x => w32 (acc * 256 + x)) 0

/-- The sixteen message-schedule words of one chunk. -/
def chunkWords (chunk : List Nat) : List Nat :=
  (List.range 16).map (fun i => beWord ((chunk.drop (4 * i)).take 4))

/-- Schedule function σ₀. -/
def ssig0 (x : Nat) : Nat := (rotr 7 x) ^^^ (rotr 18 x) ^^^ (x >>> 3)

/-- Schedule function σ₁. -/
def ssig1 (x : Nat) : Nat := (rotr 17 x) ^^^ (rotr 19 x) ^^^ (x >>> 10)

/-- Compression function Σ₀. -/
def bsig0 (x : Nat) : Nat := (rotr 2 x) ^^^ (rotr 13 x) ^^^ (rotr 22 x)

/-- Compression function Σ₁. -/
def bsig1 (x : Nat) : Nat := (rotr 6 x) ^^^ (rotr 11 x) ^^^ (rotr 25 x)

/-- Extend the message schedule by `fuel` further words. -/
def extendW (w : List Nat) : Nat → List Nat
  | 0 => w
  | fuel + 1 =>
    let i := w.length
    extendW (w ++ [w32 (ssig1 (w.getD (i - 2) 0) + w.getD (i - 7) 0 +
      ssig0 (w.getD (i - 15) 0) + w.getD (i - 16) 0)]) fuel

/-- One round of the SHA-256 compression loop on state `[a,b,c,d,e,f,g,h]`. -/
def shaRound (w : List Nat) (st : List Nat) (i : Nat) : List Nat :=
  match st with
  | [a, b, c, d, e, f, g, h] =>
    let t1 := w32 (h + bsig1 e + ((e &&& f) ^^^ ((0xFFFFFFFF ^^^ e) &&& g)) +
      shaK.getD i 0 + w.getD i 0)
    let t2 := w32 (bsig0 a + ((a &&& b) ^^^ (a &&& c) ^^^ (b &&& c)))
    [w32 (t1 + t2), a, b, c, w32 (d + t1), e, f, g]
  | other => other

/-- Process one 64-byte chunk. -/
def shaCompress (h : List Nat) (chunk : List Nat) : List Nat :=
  let w := extendW (chunkWords chunk) 48
  let fin := (List.range 64).foldl (shaRound w) h
  (h.zip fin).map (fun p => w32 (p.1 + p.2))

/-- SHA-256 digest of a byte string, as eight 32-bit words. -/
def sha256Words (msg : List Nat) : List Nat :=
  (chunks64 (sha256Pad msg)).foldl shaCompress shaH0

/-- Lowercase hex digit of a value below 16. -/
def toHexChar (n : Nat) : Char :=
  if n < 10 then Char.ofNat (48 + n) else Char.ofNat (87 + n)

/-- Eight hex digits of one 32-bit word, most significant first. -/
def wordToHex (n : Nat) : List Char :=
  (List.range 8).map (fun i => toHexChar ((n >>> (4 * (7 - i))) &&& 0xF))

/-- Python `hashlib.sha256(msg).hexdigest()` (64 lowercase hex chars). -/
def sha256Hex (msg : List Nat) : List Char := ((sha256Words msg).map wordToHex).flatten

/-- `PIIDetector._hash_pii`: `sha256((pii_text + salt).encode("utf-8"))
.hexdigest()[:16]`. -/
def hashPii (salt piiText : List Char) : List Char :=
  (sha256Hex (utf8 (piiText ++ salt))).take 16

/-- `_compute_body_hash` of `src/preprocessing.py`: full 64-char digest of
the redacted body. -/
def computeBodyHash (body : List Char) : List Char := sha256Hex (utf8 body)

/-! ### PII detection and redaction (`src/pii_detection.py`)

All PII patterns are compiled with `re.VERBOSE | re.IGNORECASE`, the
whitelist patterns with `re.IGNORECASE`.  Group alternations
(`(?:a|b|c)`, optionally suffixed `?`) are expanded into top-level branches
in Python's backtracking preference order.  `\d` / `\w` are modelled on
their ASCII fragment (see `isWordChar`). -/

/-- ASCII digit (`\d`, `[0-9]`). -/
def isDigitA (c : Char) : Bool := if 48 ≤ c.toNat ∧ c.toNat ≤ 57 then true else false

/-- Class `[A-Z]`. -/
def isUpperAZ (c : Char) : Bool := if 65 ≤ c.toNat ∧ c.toNat ≤ 90 then true else false

/-- Class `[A-Za-z]`. -/
def isAlphaA (c : Char) : Bool :=
  if (65 ≤ c.toNat ∧ c.toNat ≤ 90) ∨ (97 ≤ c.toNat ∧ c.toNat ≤ 122) then true else false

/-- Class `[A-Za-z0-9._%+-]` (local part of the EMAIL pattern). -/
def emailLocalClass (c : Char) : Bool :=
  isAlphaA c || isDigitA c || c == '.' || c == '_' || c == '%' || c == '+' || c == '-'

/-- Class `[A-Za-z0-9.-]` (domain part of the EMAIL pattern). -/
def emailDomainClass (c : Char) : Bool :=
  isAlphaA c || isDigitA c || c == '.' || c == '-'

/-- Class `[A-Z|a-z]` (TLD of the EMAIL pattern; the literal `|` is part of
the class). -/
def emailTldClass (c : Char) : Bool := isAlphaA c || c == '|'

/-- Pattern `EMAIL`: `\b[A-Za-z0-9._%+-]+@[A-Za-z0-9.-]+\.[A-Z|a-z]{2,}\b`. -/
def emailPat : RPattern :=
  ⟨true, [[RItem.wb, RItem.cls emailLocalClass 1 none, RItem.lit "@".toList,
           RItem.cls emailDomainClass 1 none, RItem.lit ".".toList,
           RItem.cls emailTldClass 2 none, RItem.wb]]⟩

/-- Pattern `PHONE_IT` (VERBOSE; comments and whitespace stripped):
`\+39[\s]?[0-9]{2,3}[\s]?[0-9]{6,7}|0[0-9]{2,3}[\s]?[0-9]{6,7}`. -/
def phoneItPat : RPattern :=
  ⟨true, [[RItem.lit "+39".toList, RItem.cls pyIsSpace 0 (some 1),
           RItem.cls isDigitA 2 (some 3), RItem.cls pyIsSpace 0 (some 1),
           RItem.cls isDigitA 6 (some 7)],
          [RItem.lit "0".toList, RItem.cls isDigitA 2 (some 3),
           RItem.cls pyIsSpace 0 (some 1), RItem.cls isDigitA 6 (some 7)]]⟩

/-- Pattern `PIVA`: `\b(?:IT\s?)?[0-9]{11}\b`; the optional group is greedy,
so the `IT`-branch is preferred. -/
def pivaPat : RPattern :=
  ⟨true, [[RItem.wb, RItem.lit "IT".toList, RItem.cls pyIsSpace 0 (some 1),
           RItem.cls isDigitA 11 (some 11), RItem.wb],
          [RItem.wb, RItem.cls isDigitA 11 (some 11), RItem.wb]]⟩

/-- Pattern `CF`: `\b[A-Z]{6}[0-9]{2}[A-Z][0-9]{2}[A-Z][0-9]{3}[A-Z]\b`
(IGNORECASE makes `[A-Z]` match lowercase as well). -/
def cfPat : RPattern :=
  ⟨true, [[RItem.wb, RItem.cls isUpperAZ 6 (some 6), RItem.cls isDigitA 2 (some 2),
           RItem.cls isUpperAZ 1 (some 1), RItem.cls isDigitA 2 (some 2),
           RItem.cls isUpperAZ 1 (some 1), RItem.cls isDigitA 3 (some 3),
           RItem.cls isUpperAZ 1 (some 1), RItem.wb]]⟩

/-- Class `[0-9A-Z]`. -/
def digitOrUpperClass (c : Char) : Bool := isDigitA c || isUpperAZ c

/-- Pattern `IBAN`: `\bIT\d{2}[A-Z]\d{10}[0-9A-Z]{12}\b`. -/
def ibanPat : RPattern :=
  ⟨true, [[RItem.wb, RItem.lit "IT".toList, RItem.cls isDigitA 2 (some 2),
           RItem.cls isUpperAZ 1 (some 1), RItem.cls isDigitA 10 (some 10),
           RItem.cls digitOrUpperClass 12 (some 12), RItem.wb]]⟩

/-- `COMPILED_PII_PATTERNS` in dict insertion order. -/
def COMPILED_PII_PATTERNS : List (String × RPattern) :=
  [("EMAIL", emailPat), ("PHONE_IT", phoneItPat), ("PIVA", pivaPat),
   ("CF", cfPat), ("IBAN", ibanPat)]

/-- One branch of the `INVOICE_NUMBER` whitelist pattern for a fixed
business word and an optional numbering token (`none` models the skipped
`(?:n\.?|num\.?|nr\.?)?` group). -/
def invoiceBranch (word : String) (mid : Option String) : List RItem :=
  [RItem.wb, RItem.lit word.toList, RItem.cls pyIsSpace 0 none] ++
    (match mid with
     | some m => [RItem.lit m.toList, RItem.cls (fun c => c == '.') 0 (some 1)]
     | none => []) ++
    [RItem.cls pyIsSpace 0 none, RItem.cls isDigitA 1 none, RItem.wb]

/-- Whitelist pattern `INVOICE_NUMBER`:
`\b(?:fattura|invoice|ordine|order|pratica)\s*(?:n\.?|num\.?|nr\.?)?\s*\d+\b`,
expanded into branches in Python preference order (each word first with
`n`, `num`, `nr`, then with the group skipped). -/
def invoiceNumberPat : RPattern :=
  ⟨true, (["fattura", "invoice", "ordine", "order", "pratica"].map (fun w =>
    [invoiceBranch w (some "n"), invoiceBranch w (some "num"),
     invoiceBranch w (some "nr"), invoiceBranch w none])).flatten⟩

/-- Whitelist pattern `REFERENCE_NUMBER`:
`\b(?:rif\.?|ref\.?|protocollo|prot\.?)\s*\d+\b`. -/
def referenceNumberPat : RPattern :=
  ⟨true, [[RItem.wb, RItem.lit "rif".toList, RItem.cls (fun c => c == '.') 0 (some 1),
           RItem.cls pyIsSpace 0 none, RItem.cls isDigitA 1 none, RItem.wb],
          [RItem.wb, RItem.lit "ref".toList, RItem.cls (fun c => c == '.') 0 (some 1),
           RItem.cls pyIsSpace 0 none, RItem.cls isDigitA 1 none, RItem.wb],
          [RItem.wb, RItem.lit "protocollo".toList,
           RItem.cls pyIsSpace 0 none, RItem.cls isDigitA 1 none, RItem.wb],
          [RItem.wb, RItem.lit "prot".toList, RItem.cls (fun c => c == '.') 0 (some 1),
           RItem.cls pyIsSpace 0 none, RItem.cls isDigitA 1 none, RItem.wb]]⟩

/-- `COMPILED_WHITELIST_PATTERNS` in dict insertion order. -/
def COMPILED_WHITELIST_PATTERNS : List (String × RPattern) :=
  [("INVOICE_NUMBER", invoiceNumberPat), ("REFERENCE_NUMBER", referenceNumberPat)]

/-- The `PIIRedaction` dataclass of `src/models.py`. -/
structure PIIRedaction where
  type : String
  original_hash : List Char
  redacted : List Char
  span_start : Nat
  span_end : Nat
  confidence : ℚ
  detection_method : String
deriving DecidableEq

/-- The `__post_init__` validation of `PIIRedaction` (spans are `Nat`, so
`span_start ≥ 0` is automatic). -/
def piiRedactionValid (r : PIIRedaction) : Bool :=
  if rat 0 1 ≤ r.confidence ∧ r.confidence ≤ rat 1 1 ∧ r.span_start ≤ r.span_end ∧
     (r.detection_method = "regex" ∨ r.detection_method = "ner" ∨
       r.detection_method = "hybrid") then true else false

/-- `PIIDetector._spans_overlap`. -/
def spansOverlap (s1 s2 : Nat × Nat) : Bool :=
  if s1.2 ≤ s2.1 ∨ s2.2 ≤ s1.1 then false else true

/-- `PIIDetector._overlaps`. -/
def piiOverlaps (r1 r2 : PIIRedaction) : Bool :=
  if r1.span_end ≤ r2.span_start ∨ r2.span_end ≤ r1.span_start then false else true

/-- The whitelist spans collected at the top of `detect_pii_regex` (the
Python code stores them in a set and only tests membership-overlap, so a
list is an adequate model). -/
def whitelistSpans (t : List Char) : List (Nat × Nat) :=
  (COMPILED_WHITELIST_PATTERNS.map (fun p => pyFinditer p.2 t)).flatten

/-- `PIIDetector.detect_pii_regex`: for each PII pattern, every `finditer`
match not overlapping a whitelist span becomes a redaction with confidence
1.0 and method `"regex"`. -/
def detect_pii_regex (salt : List Char) (t : List Char) : List PIIRedaction :=
  let ws := whitelistSpans t
  (COMPILED_PII_PATTERNS.map (fun np =>
    (pyFinditer np.2 t).filterMap (fun sp =>
      if ws.any (fun w => spansOverlap sp w) then none
      else
        some { type := np.1,
               original_hash := hashPii salt ((t.drop sp.1).take (sp.2 - sp.1)),
               redacted := ("[PII_" ++ np.1 ++ "]").toList,
               span_start := sp.1, span_end := sp.2,
               confidence := rat 1 1, detection_method := "regex" }))).flatten

/-- One entity returned by the spaCy NER model (`doc.ents`), the black-box
collaborator of §6 of the spec: character span, label, and covered text. -/
structure NEREntity where
  start_char : Nat
  end_char : Nat
  label : String
  text : List Char

/-- The configuration values `detect_pii_ner` reads (salt, NER confidence
threshold, `get_max_body_size_bytes()`). -/
structure DetectorConfig where
  salt : List Char
  pii_ner_confidence_threshold : ℚ
  max_body_size : Nat

/-- `PIIDetector.detect_pii_ner` with the model as an oracle `nlp` from
text to entities.  Mirrors the truncation, the label / length / honorific
filters, the length-based confidence
`min(0.9, 0.7 + len(ent.text) * 0.01)` (exact rational arithmetic models
the float expression; no claim depends on rounding at the threshold), and
the threshold cut. -/
def detect_pii_ner (nlp : List Char → List NEREntity) (cfg : DetectorConfig)
    (t : List Char) : List PIIRedaction :=
  let t := if cfg.max_body_size < t.length then t.take cfg.max_body_size else t
  (nlp t).filterMap (fun ent =>
    if ¬ (ent.label = "PERSON" ∨ ent.label = "PER" ∨ ent.label = "ORG") then none
    else if ent.text.length < 3 then none
    else if (ent.text.map asciiLower).asString ∈
        ["dr", "sig", "sig.ra", "dott", "prof", "ing"] then none
    else
      let piiType : String := if ent.label = "PERSON" ∨ ent.label = "PER" then "NAME" else "ORG"
      let confidence : ℚ := min (rat 9 10) (rat 7 10 + (ent.text.length : ℚ) * rat 1 100)
      if confidence < cfg.pii_ner_confidence_threshold then none
      else
        some { type := piiType,
               original_hash := hashPii cfg.salt ent.text,
               redacted := ("[PII_" ++ piiType ++ "]").toList,
               span_start := ent.start_char, span_end := ent.end_char,
               confidence := confidence, detection_method := "ner" })

/-- Sort key relation `lambda r: r.span_start` (ascending). -/
def startLE (a b : PIIRedaction) : Prop := a.span_start ≤ b.span_start

instance : DecidableRel startLE := fun a b => Nat.decLe a.span_start b.span_start

/-- Sort key relation for `sorted(…, reverse=True)` (descending). -/
def startGE (a b : PIIRedaction) : Prop := b.span_start ≤ a.span_start

instance : DecidableRel startGE := fun a b => Nat.decLe b.span_start a.span_start

/-- Python `sorted(redactions, key=lambda r: r.span_start)`.  Insertion
sort with a non-strict relation is stable (an element is inserted before
every equal-key element of the already-sorted tail, all of which come later
in the original list), so it computes the same list as Python's stable
sort. -/
def sortByStart (rs : List PIIRedaction) : List PIIRedaction :=
  List.insertionSort startLE rs

/-- Python `sorted(redactions, key=lambda r: r.span_start, reverse=True)`,
which is likewise stable. -/
def sortByStartDesc (rs : List PIIRedaction) : List PIIRedaction :=
  List.insertionSort startGE rs

/-- The sweep of `merge_redactions`: compare the running `current` against
each next candidate in start order. -/
def mergeLoop (current : PIIRedaction) : List PIIRedaction → List PIIRedaction
  | [] => [current]
  | n :: rest =>
    if piiOverlaps current n then
      if current.detection_method = "regex" ∧ n.detection_method = "ner" then
        mergeLoop current rest
      else if current.detection_method = "ner" ∧ n.detection_method = "regex" then
        mergeLoop n rest
      else if current.span_end - current.span_start < n.span_end - n.span_start then
        mergeLoop n rest
      else
        mergeLoop current rest
    else
      current :: mergeLoop n rest

/-- `PIIDetector.merge_redactions`. -/
def merge_redactions (rs : List PIIRedaction) : List PIIRedaction :=
  match sortByStart rs with
  | [] => []
  | c :: rest => mergeLoop c rest

/-- `PIIDetector.apply_redactions`: sort by `span_start` descending and
replace each span (Python slices clamp out-of-range indices exactly as
`List.take` / `List.drop` do). -/
def apply_redactions (t : List Char) (rs : List PIIRedaction) : List Char :=
  match rs with
  | [] => t
  | _ :: _ =>
    (sortByStartDesc rs).foldl
      (fun text r => text.take r.span_start ++ r.redacted ++ text.drop r.span_end) t

/-- `PIIDetector.detect_and_redact`. -/
def detect_and_redact (nlp : List Char → List NEREntity) (cfg : DetectorConfig)
    (t : List Char) : List Char × List PIIRedaction :=
  let regexRedactions := detect_pii_regex cfg.salt t
  let nerRedactions := detect_pii_ner nlp cfg t
  let merged := merge_redactions (regexRedactions ++ nerRedactions)
  (apply_redactions t merged, merged)

/-- `PIIDetector.detect_only`: the same detection and merge chain, without
the final application to the text. -/
def detect_only (nlp : List Char → List NEREntity) (cfg : DetectorConfig)
    (t : List Char) : List PIIRedaction :=
  let regexRedactions := detect_pii_regex cfg.salt t
  let nerRedactions := detect_pii_ner nlp cfg t
  merge_redactions (regexRedactions ++ nerRedactions)

/-- `redact_headers_pii` of `src/pii_detection.py`, over an
insertion-ordered association list (the Python dict). -/
def redact_headers_pii (nlp : List Char → List NEREntity) (cfg : DetectorConfig)
    (headers : List (String × List Char)) : List (String × List Char) :=
  headers.map (fun kv =>
    if kv.1 ∈ ["from", "to", "cc", "bcc", "reply-to", "sender"] then
      (kv.1, (detect_and_redact nlp cfg kv.2).1)
    else if kv.1 = "subject" then
      (kv.1, (detect_and_redact nlp cfg kv.2).1)
    else kv)

/-! ### Data model and orchestrator (`src/models.py`, `src/config.py`,
`src/preprocessing.py`, `src/error_handling.py`)

Python dataclass construction with keyword arguments raises `TypeError`
when a keyword is not a field or a field without default is missing, and
attribute access on the pydantic settings object raises `AttributeError`
for an undefined name.  Both checks are modelled against the literal field
lists of `src/models.py` and `src/config.py`. -/

/-- Field names of the frozen dataclass `PipelineVersion` (`src/models.py`,
all with defaults). -/
def pipelineVersionFields : List String :=
  ["parser_version", "canonicalization_version", "ner_model_version",
   "pii_redaction_version"]

/-- Field names of the frozen dataclass `EmailDocument` (`src/models.py`). -/
def emailDocumentFields : List String :=
  ["uid", "uidvalidity", "mailbox", "message_id", "fetched_at", "size",
   "from_addr_redacted", "to_addrs_redacted", "subject_canonical",
   "date_parsed", "headers_canonical", "body_text_canonical",
   "body_html_canonical", "body_original_hash", "removed_sections",
   "pii_entities", "pipeline_version", "processing_timestamp",
   "processing_duration_ms"]

/-- `EmailDocument` fields without defaults (all nineteen). -/
def emailDocumentRequired : List String := emailDocumentFields

/-- Attributes of `PreprocessingConfig` (`src/config.py`). -/
def preprocessingConfigFields : List String :=
  ["pii_salt", "parser_version", "canonicalization_version",
   "ner_model_version", "pii_redaction_version", "pii_mode",
   "pii_ner_confidence_threshold", "pii_regex_timeout_sec", "remove_quotes",
   "remove_signatures", "max_body_size_kb", "spacy_batch_size",
   "multiprocessing_workers", "allowed_origins", "log_level",
   "log_pii_preview"]

/-- Attribute access `config.<name>`: `AttributeError` when the settings
class has no such field. -/
def configGetattr (name : String) : Except String Unit :=
  if preprocessingConfigFields.contains name then Except.ok ()
  else
    Except.error ("AttributeError: 'PreprocessingConfig' object has no attribute '"
      ++ name ++ "'")

/-- Keyword-argument call of a dataclass constructor: `TypeError` when a
keyword is not a field or a required field is missing. -/
def dataclassCall (cls : String) (fields required kwargs : List String) :
    Except String Unit :=
  if kwargs.all (fun k => fields.contains k) &&
     required.all (fun f => kwargs.contains f) then Except.ok ()
  else
    Except.error ("TypeError: " ++ cls ++
      "() got unexpected or missing keyword arguments")

/-- The frozen dataclass `PipelineVersion` of `src/models.py`. -/
structure PipelineVersion where
  parser_version : String := "email-parser-1.3.0"
  canonicalization_version : String := "1.3.0"
  ner_model_version : String := "it_core_news_lg-3.8.2"
  pii_redaction_version : String := "1.0.0"
deriving DecidableEq

/-- The `InputEmail` dataclass of `src/models.py`. -/
structure InputEmail where
  uid : String
  uidvalidity : String
  mailbox : String
  from_addr : String
  to_addrs : List String
  subject : String
  date : String
  body_text : List Char
  body_html : List Char
  size : Nat
  headers : List (String × List Char)
  message_id : String
  fetched_at : String
  raw_bytes : Option (List Nat) := none
  body_truncated : Bool := false

/-- The frozen `EmailDocument` dataclass of `src/models.py` (the output
document type). -/
structure EmailDocument where
  uid : String
  uidvalidity : String
  mailbox : String
  message_id : String
  fetched_at : String
  size : Nat
  from_addr_redacted : List Char
  to_addrs_redacted : List (List Char)
  subject_canonical : List Char
  date_parsed : List Char
  headers_canonical : List (String × List Char)
  body_text_canonical : List Char
  body_html_canonical : List Char
  body_original_hash : List Char
  removed_sections : List RemovedSection
  pii_entities : List PIIRedaction
  pipeline_version : PipelineVersion
  processing_timestamp : String
  processing_duration_ms : Nat

/-- Outcomes of the out-of-scope collaborators consumed by
`preprocess_email` (spec §6): RFC5322 header parsing, MIME body extraction
and merge, the spaCy entity model, the configuration values, and the
watchdog-timeout oracle of the guarded matcher.  Each `Except` value is the
outcome the corresponding Python call has on this invocation. -/
structure PipelineOracles where
  parseHeaders : Except String (List (String × List Char))
  extractBody : Except String (List Char)
  nlp : List Char → List NEREntity
  cfg : DetectorConfig
  timesOut : Nat → Bool

/-- `preprocess_email` of `src/preprocessing.py`.  Steps 1–6 are each
wrapped in `try/except` with a fallback value in the source, so they are
total here; step 7 evaluates
`PipelineVersion(version=config.pipeline_version, preprocessing_layer="1.0.0")`
and
`EmailDocument(message_id=…, headers=…, body_text=…, body_hash=…,
pii_redactions=…, removed_sections=…, pipeline_version=…)`,
whose attribute and keyword names are checked against `src/config.py` and
`src/models.py` in Python's evaluation order. -/
def preprocess_email (po : PipelineOracles) (input : InputEmail) :
    Except String EmailDocument :=
  let headers := match po.parseHeaders with
    | Except.ok h => h
    | Except.error _ => []
  let mergedBody := match po.extractBody with
    | Except.ok b => b
    | Except.error _ => input.body_text
  let canonRes := canonicalize_text po.timesOut mergedBody true true
  let redactRes := detect_and_redact po.nlp po.cfg canonRes.1
  let _redactedHeaders := redact_headers_pii po.nlp po.cfg headers
  let _bodyHash := computeBodyHash redactRes.1
  match configGetattr "pipeline_version" with
  | Except.error e => Except.error e
  | Except.ok _ =>
  match dataclassCall "PipelineVersion" pipelineVersionFields []
      ["version", "preprocessing_layer"] with
  | Except.error e => Except.error e
  | Except.ok _ =>
  match dataclassCall "EmailDocument" emailDocumentFields emailDocumentRequired
      ["message_id", "headers", "body_text", "body_hash", "pii_redactions",
       "removed_sections", "pipeline_version"] with
  | Except.error e => Except.error e
  | Except.ok _ =>
    Except.error "unreachable: the keyword checks above cannot all succeed"

/-- `_create_error_document` of `src/preprocessing.py`: builds
`EmailDocument(message_id=…, headers={"preprocessing-error": error},
body_text="[PREPROCESSING ERROR: …]", body_hash="", pii_redactions=[],
removed_sections=[], pipeline_version=PipelineVersion(
version=config.pipeline_version, preprocessing_layer="1.0.0"))` — the same
attribute access and keyword names as step 7 of `preprocess_email`,
checked in Python's evaluation order. -/
def createErrorDocument (_input : InputEmail) (_error : String) :
    Except String EmailDocument :=
  match configGetattr "pipeline_version" with
  | Except.error e => Except.error e
  | Except.ok _ =>
  match dataclassCall "PipelineVersion" pipelineVersionFields []
      ["version", "preprocessing_layer"] with
  | Except.error e => Except.error e
  | Except.ok _ =>
  match dataclassCall "EmailDocument" emailDocumentFields emailDocumentRequired
      ["message_id", "headers", "body_text", "body_hash", "pii_redactions",
       "removed_sections", "pipeline_version"] with
  | Except.error e => Except.error e
  | Except.ok _ =>
    Except.error "unreachable: the keyword checks above cannot all succeed"

/-- `preprocess_email_safe` of `src/error_handling.py`: the four-tier
fallback chain.  Tier 1 is the embedded `preprocess_email`.  Tiers 2–4
(`preprocess_email_regex_only`, `preprocess_email_no_canon`,
`create_minimal_document`) construct their documents with the correct
field names but can still raise in Python through dynamically-typed header
or body values (e.g. a non-string `headers["to"]` fails at `.split(",")`),
through `get_config()` / spaCy model loading, or through `datetime.now` —
effects outside the typed embedding — so their outcomes on the given input
enter as function parameters.  The final fallback is the embedded
`_create_error_document`, called outside any `try`. -/
def preprocess_email_safe (po : PipelineOracles)
    (tier2 tier3 tier4 : InputEmail → Except String EmailDocument)
    (input : InputEmail) : Except String EmailDocument :=
  match preprocess_email po input with
  | Except.ok d => Except.ok d
  | Except.error _ =>
  match tier2 input with
  | Except.ok d => Except.ok d
  | Except.error _ =>
  match tier3 input with
  | Except.ok d => Except.ok d
  | Except.error _ =>
  match tier4 input with
  | Except.ok d => Except.ok d
  | Except.error e4 => createErrorDocument input ("All fallbacks failed: " ++ e4)

/-! ### Auxiliary definitions used by the theorems -/

/-- Non-overlap of two redactions as stated by the spec ("one span ends at
or before the other begins") — the propositional form of `!piiOverlaps`. -/
def piiNonOvP (a b : PIIRedaction) : Prop :=
  a.span_end ≤ b.span_start ∨ b.span_end ≤ a.span_start

instance : DecidableRel piiNonOvP := fun a b =>
  inferInstanceAs (Decidable (a.span_end ≤ b.span_start ∨ b.span_end ≤ a.span_start))

/-- Strict start order (used to identify the two stable sorts on lists with
pairwise distinct starts). -/
def startLT (a b : PIIRedaction) : Prop := a.span_start < b.span_start

instance : IsTotal PIIRedaction startLE := ⟨fun _ _ => Nat.le_total _ _⟩

instance : IsTrans PIIRedaction startLE := ⟨fun _ _ _ => Nat.le_trans⟩

instance : IsTotal PIIRedaction startGE := ⟨fun _ _ => Nat.le_total _ _⟩

instance : IsTrans PIIRedaction startGE := ⟨fun _ _ _ h1 h2 => Nat.le_trans h2 h1⟩

instance : IsAntisymm PIIRedaction startLT :=
  ⟨fun _ _ h1 h2 => absurd (Nat.lt_trans h1 h2) (Nat.lt_irrefl _)⟩

/-- Spec-side description of redaction application ("the original text with
each redaction's span replaced by its type-specific placeholder token"),
for redactions listed in ascending span order with cursor `pos`.  This
definition follows the specification's words and is compared against the
source-translated `apply_redactions`. -/
def replacedBySpans (t : List Char) : List PIIRedaction → Nat → List Char
  | [], pos => t.drop pos
  | r :: rest, pos =>
    (t.drop pos).take (r.span_start - pos) ++ r.redacted ++
      replacedBySpans t rest r.span_end

/-- Lowercase hexadecimal digit test. -/
def isHexDigit (c : Char) : Bool :=
  if (48 ≤ c.toNat ∧ c.toNat ≤ 57) ∨ (97 ≤ c.toNat ∧ c.toNat ≤ 102) then true
  else false

/-- Value of a lowercase hex digit as `Fin 16` (0 for other characters
after the mod). -/
def hexVal (c : Char) : Fin 16 :=
  ⟨(if c.toNat ≤ 57 then c.toNat - 48 else c.toNat - 87) % 16,
   Nat.mod_lt _ (by omega)⟩

/-- Finite code of the 16-character hash of `pii` under a salt: the value
of each hex digit (used for the pigeonhole argument on salts). -/
def hashCode (pii : List Char) (salt : List Char) : Fin 16 → Fin 16 :=
  fun i => hexVal ((hashPii salt pii).getD i.1 'x')

/-- One 50-underscore line of the non-idempotence input. -/
def underscoreLine : List Char := List.replicate 50 '_' ++ ['\n']

/-- Concrete input on which `canonicalize_text` is not idempotent: the
reply header "On X … wrote:" is 207 characters wide on the first pass
(beyond the 200-character bound of `reply_header_en`), but removing the
four signature-underline lines brings it within bound, so the second pass
removes it. -/
def nonIdempotentInput : List Char :=
  "On X\n".toList ++ underscoreLine ++ underscoreLine ++ underscoreLine ++
    underscoreLine ++ "wrote:".toList

/-- Counterexample candidates for the merge tie-break claim: a long regex
redaction `[0,10)`. -/
def mergeRegexLong : PIIRedaction :=
  { type := "EMAIL", original_hash := "h1".toList,
    redacted := "[PII_EMAIL]".toList, span_start := 0, span_end := 10,
    confidence := 1, detection_method := "regex" }

/-- A short regex redaction `[9,11)` overlapping both its neighbours. -/
def mergeRegexShort : PIIRedaction :=
  { type := "PHONE_IT", original_hash := "h2".toList,
    redacted := "[PII_PHONE_IT]".toList, span_start := 9, span_end := 11,
    confidence := 1, detection_method := "regex" }

/-- A model-method (ner) redaction `[10,20)` overlapping `mergeRegexShort`
but not `mergeRegexLong`. -/
def mergeNer : PIIRedaction :=
  { type := "NAME", original_hash := "h3".toList,
    redacted := "[PII_NAME]".toList, span_start := 10, span_end := 20,
    confidence := rat 4 5, detection_method := "ner" }

/-- Counterexample candidates for the merged-set invariant: a wide regex
redaction `[5,100)`. -/
def mergeWide : PIIRedaction :=
  { type := "EMAIL", original_hash := "k1".toList,
    redacted := "[PII_EMAIL]".toList, span_start := 5, span_end := 100,
    confidence := 1, detection_method := "regex" }

/-- An empty-span redaction `[5,5)` (allowed by `PIIRedaction.__post_init__`,
which only requires `span_end ≥ span_start`). -/
def mergeEmptySpan : PIIRedaction :=
  { type := "NAME", original_hash := "k2".toList,
    redacted := "[PII_NAME]".toList, span_start := 5, span_end := 5,
    confidence := rat 4 5, detection_method := "ner" }

/-- A redaction `[6,7)` inside `mergeWide` but disjoint from
`mergeEmptySpan`. -/
def mergeInner : PIIRedaction :=
  { type := "NAME", original_hash := "k3".toList,
    redacted := "[PII_NAME]".toList, span_start := 6, span_end := 7,
    confidence := rat 4 5, detection_method := "ner" }

/-- Counterexample redaction for the apply-redactions claim: replaces the
first character of `"aa"`. -/
def applyFirstA : PIIRedaction :=
  { type := "EMAIL", original_hash := "h".toList,
    redacted := "[PII_EMAIL]".toList, span_start := 0, span_end := 1,
    confidence := 1, detection_method := "regex" }

/-- The `AttributeError` message produced by evaluating
`config.pipeline_version` in `src/preprocessing.py` (the configuration
class has no such field). -/
def cfgAttrErrorMsg : String :=
  "AttributeError: 'PreprocessingConfig' object has no attribute 'pipeline_version'"

/-- The canonicalization pipeline run over an explicitly given entry list
(pattern triple plus timed-out flag); `canonicalize_text` is this pipeline
at the entry list built from `COMPILED_PATTERNS` and the timeout oracle. -/
def canonicalizeWithEntries (entries : List ((RPattern × String × ℚ) × Bool))
    (text : List Char) (remove_quotes remove_signatures : Bool) :
    List Char × List RemovedSection :=
  let t1 := normalizeLineEndings text
  let t2 := unicodeNFC t1
  let t3 := normalizeUnicodeWhitespace t2
  canonPost (applyPatterns remove_quotes remove_signatures entries t3 [])

/-- A concrete input email (used to instantiate hypotheses of theorems). -/
def sampleInput : InputEmail :=
  { uid := "42", uidvalidity := "1", mailbox := "INBOX",
    from_addr := "mario.rossi@example.com", to_addrs := ["x@y.it"],
    subject := "hello", date := "2026-01-01",
    body_text := "Contact me at mario.rossi@example.com".toList,
    body_html := [], size := 37,
    headers := [("from", "mario.rossi@example.com".toList)],
    message_id := "<sample@example.com>", fetched_at := "2026-01-01T00:00:00Z" }

/-- Concrete salt for witness instantiations. -/
def wSalt : List Char := "testsalt-0123456789abcdef".toList

/-- Concrete text containing both a whitelist match (`"fattura n. 123"`)
and a PII match (`"mario@x.it"`). -/
def wInvoiceText : List Char := "fattura n. 123 mail mario@x.it".toList

/-- A ner redaction `[5,15)` overlapping `mergeRegexLong` (witness input
for the pairwise tie-break). -/
def mergeNerOverlap : PIIRedaction :=
  { type := "NAME", original_hash := "h4".toList,
    redacted := "[PII_NAME]".toList, span_start := 5, span_end := 15,
    confidence := rat 4 5, detection_method := "ner" }

/-- Concrete collaborator outcomes (all successful) for the same purpose. -/
def sampleOracles : PipelineOracles :=
  { parseHeaders := Except.ok [("from", "mario.rossi@example.com".toList)],
    extractBody := Except.ok "Contact me at mario.rossi@example.com".toList,
    nlp := fun _ => [],
    cfg := { salt := "testsalt-0123456789abcdef".toList,
             pii_ner_confidence_threshold := rat 3 4, max_body_size := 512000 },
    timesOut := fun _ => false }

/-! ### Helper lemmas -/

/-- `preprocess_email` raises on every input: step 7 evaluates
`config.pipeline_version`, and `PreprocessingConfig` has no such field, so
the `AttributeError` escapes (step 7 is outside every `try` block). -/
theorem preprocessEmailAlwaysErrors (po : PipelineOracles) (inp : InputEmail) :
    preprocess_email po inp = Except.error cfgAttrErrorMsg := rfl

/-- `_create_error_document` raises on every input, for the same reason. -/
theorem createErrorDocumentAlwaysErrors (inp : InputEmail) (msg : String) :
    createErrorDocument inp msg = Except.error cfgAttrErrorMsg := rfl

/-! ### Claim C10 — `detect_only` is the non-mutating projection -/

/-- C10: for every entity-model oracle, configuration and input text,
`detect_only` returns exactly the merged redaction list that
`detect_and_redact` returns as its second component.  The text itself is a
value (Python strings are immutable and `detect_only` never calls
`apply_redactions`), so the returned spans refer to the unmodified input. -/
theorem detect_only_eq_detect_and_redact_snd (nlp : List Char → List NEREntity)
    (cfg : DetectorConfig) (t : List Char) :
    detect_only nlp cfg t = (detect_and_redact nlp cfg t).2 := rfl

/-! ### Claim C5 — determinism of the processing pipeline -/

/-- C5 (code bug): `preprocess_email` never produces a document at all —
for every collaborator outcome and every input it raises at step 7, because
`config.pipeline_version` is not a `PreprocessingConfig` field (and the
subsequent `PipelineVersion(version=…, preprocessing_layer=…)` /
`EmailDocument(headers=…, body_text=…, …)` keyword sets do not exist on the
`src/models.py` dataclasses either).  The claimed byte-identical body and
redaction multiset across repeated invocations is therefore vacuous: there
is no output to compare, contradicting the repository's own tests, which
call `preprocess_email` and read `result.body_text_canonical`. -/
theorem preprocess_email_always_raises (po : PipelineOracles) (inp : InputEmail) :
    preprocess_email po inp = Except.error cfgAttrErrorMsg :=
  preprocessEmailAlwaysErrors po inp

/-! ### Claim C1 — the orchestrator never propagates an exception -/

/-- C1 (code bug): when every tier fails, `preprocess_email_safe`
propagates an exception to its caller instead of returning the promised
error document: tier 1 always raises (see `preprocessEmailAlwaysErrors`),
and the final `_create_error_document` call itself raises `AttributeError`
on `config.pipeline_version` before any document can be built, with no
surrounding `try`. -/
theorem preprocess_email_safe_propagates (po : PipelineOracles)
    (tier2 tier3 tier4 : InputEmail → Except String EmailDocument)
    (inp : InputEmail) (e2 e3 e4 : String)
    (h2 : tier2 inp = Except.error e2) (h3 : tier3 inp = Except.error e3)
    (h4 : tier4 inp = Except.error e4) :
    preprocess_email_safe po tier2 tier3 tier4 inp = Except.error cfgAttrErrorMsg := by
  unfold preprocess_email_safe
  rw [preprocessEmailAlwaysErrors, h2, h3, h4]
  exact createErrorDocumentAlwaysErrors inp _

/-- Closed witness for C1: concrete failing tiers (the Python failure mode
is e.g. `headers = {"to": 123}`, where every tier raises
`AttributeError: 'int' object has no attribute 'split'`). -/
theorem preprocess_email_safe_propagates_witness :
    preprocess_email_safe sampleOracles
      (fun _ => Except.error "AttributeError: 'int' object has no attribute 'split'")
      (fun _ => Except.error "AttributeError: 'int' object has no attribute 'split'")
      (fun _ => Except.error "AttributeError: 'int' object has no attribute 'split'")
      sampleInput = Except.error cfgAttrErrorMsg :=
  preprocess_email_safe_propagates sampleOracles _ _ _ sampleInput _ _ _ rfl rfl rfl

/-! ### Claim C6 — per-pattern timeout recovery -/

/-- The pattern loop over an entry list equals the loop over its
not-timed-out sublist: a timed-out pattern contributes no RemovedSection
and no text change, and the remaining patterns run unchanged. -/
theorem applyPatterns_filter_timeouts (rq rs : Bool) :
    ∀ (entries : List ((RPattern × String × ℚ) × Bool)) (t : List Char)
      (acc : List RemovedSection),
      applyPatterns rq rs entries t acc =
        applyPatterns rq rs (entries.filter (fun e => !e.2)) t acc := by
  intro entries
  induction entries with
  | nil => intro t acc; rfl
  | cons e rest ih =>
    intro t acc
    obtain ⟨entry, flag⟩ := e
    cases flag with
    | true =>
      by_cases h1 : (!rq && quoteGroup entry.2.1) = true
      · simp only [applyPatterns, h1, List.filter, if_true]
        exact ih t acc
      · by_cases h2 : (!rs && signatureGroup entry.2.1) = true
        · simp only [applyPatterns, h1, h2, List.filter, if_true, if_false,
            Bool.false_eq_true]
          exact ih t acc
        · simp only [applyPatterns, h1, h2, List.filter, if_true, if_false,
            Bool.false_eq_true]
          exact ih t acc
    | false =>
      by_cases h1 : (!rq && quoteGroup entry.2.1) = true
      · simp only [applyPatterns, h1, List.filter, if_true]
        exact ih t acc
      · by_cases h2 : (!rs && signatureGroup entry.2.1) = true
        · simp only [applyPatterns, h1, h2, List.filter, if_true, if_false,
            Bool.false_eq_true]
          exact ih t acc
        · simp only [applyPatterns, h1, h2, List.filter, if_true, if_false,
            Bool.false_eq_true]
          exact ih _ _

/-- C6: for every timeout-oracle outcome, `canonicalize_text` returns the
very pair that the pipeline run over only the not-timed-out patterns
returns (a result is always produced — the function is total and has no
failure constructor): a watchdog timeout on one pattern skips exactly that
pattern, records none of its matches, applies none of its removals, and
leaves every remaining pattern's processing unchanged. -/
theorem canonicalize_timeout_skips_only_that_pattern (timesOut : Nat → Bool)
    (text : List Char) (rq rs : Bool) :
    canonicalize_text timesOut text rq rs =
      canonicalizeWithEntries
        ((COMPILED_PATTERNS.enum.filter (fun p => !timesOut p.1)).map
          (fun p => (p.2, false))) text rq rs := by
  have hentries :
      (COMPILED_PATTERNS.enum.map (fun p => (p.2, timesOut p.1))).filter
          (fun e => !e.2) =
        (COMPILED_PATTERNS.enum.filter (fun p => !timesOut p.1)).map
          (fun p => (p.2, false)) := by
    rw [List.filter_map]
    apply List.map_congr_left
    intro a ha
    have := (List.mem_filter.mp ha).2
    simp only [Function.comp] at this
    simp only [Bool.not_eq_true'] at this
    simp [this]
  have step1 := applyPatterns_filter_timeouts rq rs
    (COMPILED_PATTERNS.enum.map (fun p => (p.2, timesOut p.1)))
    (normalizeUnicodeWhitespace (unicodeNFC (normalizeLineEndings text))) []
  have step2 : applyPatterns rq rs
      ((COMPILED_PATTERNS.enum.map (fun p => (p.2, timesOut p.1))).filter
        (fun e => !e.2))
      (normalizeUnicodeWhitespace (unicodeNFC (normalizeLineEndings text))) [] =
      applyPatterns rq rs
        ((COMPILED_PATTERNS.enum.filter (fun p => !timesOut p.1)).map
          (fun p => (p.2, false)))
        (normalizeUnicodeWhitespace (unicodeNFC (normalizeLineEndings text))) [] := by
    rw [hentries]
  exact congrArg canonPost (step1.trans step2)

/-! ### Claim C2 — canonicalization idempotence -/

set_option maxHeartbeats 4000000 in
/-- The first canonicalization pass over `nonIdempotentInput` removes the
four signature-underline lines and yields `"On X\n\nwrote:"`. -/
theorem firstPass_nonIdempotentInput :
    (canonicalizeNoTimeouts nonIdempotentInput).1 = "On X\n\nwrote:".toList := by
  rfl

/-- C2 (code bug): `canonicalize_text` is not idempotent.  On
`nonIdempotentInput` (with both removal flags at their default `True` and
no timeout) the second pass both changes the text (the first pass's output
`"On X\n\nwrote:"` now matches `reply_header_en`, whose 200-character bound
the removed underline lines had exceeded) and records a further
RemovedSection, contradicting the guarantee and the repository's own
property-based test `test_canonicalize_idempotent_property`. -/
theorem canonicalize_not_idempotent :
    ¬ ((canonicalizeNoTimeouts (canonicalizeNoTimeouts nonIdempotentInput).1).1 =
         (canonicalizeNoTimeouts nonIdempotentInput).1 ∧
       (canonicalizeNoTimeouts (canonicalizeNoTimeouts nonIdempotentInput).1).2 = []) := by
  rw [firstPass_nonIdempotentInput]
  decide

/-! ### Claim C4 — whitelist precedence -/

/-- C4: for every input text, `detect_pii_regex` returns no redaction
whose span overlaps any whitelist-pattern match: each candidate match
overlapping a whitelist span is discarded before a redaction is built, so
in particular a structured-pattern match fully inside a whitelist match
yields no redaction for that span. -/
theorem detect_pii_regex_whitelist_precedence (salt t : List Char)
    (r : PIIRedaction) (w : Nat × Nat)
    (hr : r ∈ detect_pii_regex salt t) (hw : w ∈ whitelistSpans t) :
    spansOverlap (r.span_start, r.span_end) w = false := by
  simp only [detect_pii_regex] at hr
  rw [List.mem_flatten] at hr
  obtain ⟨l, hl, hrl⟩ := hr
  rw [List.mem_map] at hl
  obtain ⟨np, _hnp, rfl⟩ := hl
  rw [List.mem_filterMap] at hrl
  obtain ⟨sp, _hsp, hmk⟩ := hrl
  rcases hany : (whitelistSpans t).any (fun w => spansOverlap sp w) with _ | _
  · rw [if_neg (by simp [hany])] at hmk
    have hr' := Option.some.inj hmk
    have hno := List.any_eq_false.mp hany w hw
    subst hr'
    simpa using hno
  · rw [if_pos (by simp [hany])] at hmk
    exact absurd hmk (by simp)

/-- Closed witness for C4: on `wInvoiceText` the detector returns the
email redaction and the whitelist holds the invoice span, and they do not
overlap. -/
theorem detect_pii_regex_whitelist_precedence_witness :
    spansOverlap
      (((detect_pii_regex wSalt wInvoiceText).getD 0 applyFirstA).span_start,
       ((detect_pii_regex wSalt wInvoiceText).getD 0 applyFirstA).span_end)
      ((whitelistSpans wInvoiceText).getD 0 (0, 0)) = false :=
  detect_pii_regex_whitelist_precedence wSalt wInvoiceText
    ((detect_pii_regex wSalt wInvoiceText).getD 0 applyFirstA)
    ((whitelistSpans wInvoiceText).getD 0 (0, 0))
    (by decide) (by decide)

/-! ### Claim C8 — merged-set invariant -/

/-- C8 counterexample: with an empty-span candidate — permitted by
`PIIRedaction.__post_init__`, which requires only `span_end ≥ span_start` —
`merge_redactions` returns two overlapping redactions: `[5,100)` and
`[6,7)` both survive because the empty candidate `[5,5)` "separates" them
during the sweep (it overlaps neither by the `_overlaps` formula). -/
theorem merge_redactions_overlap_counterexample :
    merge_redactions [mergeWide, mergeEmptySpan, mergeInner] =
        [mergeWide, mergeEmptySpan, mergeInner] ∧
      piiOverlaps mergeWide mergeInner = true ∧
      piiRedactionValid mergeWide = true ∧
      piiRedactionValid mergeEmptySpan = true ∧
      piiRedactionValid mergeInner = true := by
  refine ⟨by decide, by decide, by decide, by decide, by decide⟩

/-- Every element of the sweep's output is the running candidate or one of
the remaining candidates. -/
theorem mergeLoop_mem {x : PIIRedaction} :
    ∀ {l : List PIIRedaction} {c : PIIRedaction},
      x ∈ mergeLoop c l → x = c ∨ x ∈ l := by
  intro l
  induction l with
  | nil =>
    intro c hx
    simp only [mergeLoop, List.mem_singleton] at hx
    exact Or.inl hx
  | cons n rest ih =>
    intro c hx
    simp only [mergeLoop] at hx
    by_cases ho : piiOverlaps c n = true
    · rw [if_pos ho] at hx
      split_ifs at hx
      · rcases ih hx with h | h
        · exact Or.inl h
        · exact Or.inr (List.mem_cons_of_mem _ h)
      · rcases ih hx with h | h
        · exact Or.inr (h ▸ List.mem_cons_self _ _)
        · exact Or.inr (List.mem_cons_of_mem _ h)
      · rcases ih hx with h | h
        · exact Or.inr (h ▸ List.mem_cons_self _ _)
        · exact Or.inr (List.mem_cons_of_mem _ h)
      · rcases ih hx with h | h
        · exact Or.inl h
        · exact Or.inr (List.mem_cons_of_mem _ h)
    · rw [if_neg ho] at hx
      rcases List.mem_cons.mp hx with h | h
      · exact Or.inl h
      · rcases ih h with h' | h'
        · exact Or.inr (h' ▸ List.mem_cons_self _ _)
        · exact Or.inr (List.mem_cons_of_mem _ h')

/-- Sweep invariant: starting from a sorted tail whose starts lie at or
after the running candidate's, the sweep yields a sorted, pairwise
non-overlapping list, provided every span is nonempty. -/
theorem mergeLoop_sorted_nonov :
    ∀ (l : List PIIRedaction) (c : PIIRedaction),
      l.Sorted startLE → (∀ y ∈ l, c.span_start ≤ y.span_start) →
      (∀ y ∈ c :: l, y.span_start < y.span_end) →
      (mergeLoop c l).Sorted startLE ∧ (mergeLoop c l).Pairwise piiNonOvP := by
  intro l
  induction l with
  | nil =>
    intro c _ _ _
    constructor <;> simp [mergeLoop]
  | cons n rest ih =>
    intro c hs hc hne
    have hs' : rest.Sorted startLE := hs.of_cons
    have hn : ∀ y ∈ rest, startLE n y := List.rel_of_sorted_cons hs
    have hcn : c.span_start ≤ n.span_start := hc n (List.mem_cons_self n rest)
    have hnec : c.span_start < c.span_end := hne c (List.mem_cons_self _ _)
    have hnen : n.span_start < n.span_end :=
      hne n (List.mem_cons_of_mem _ (List.mem_cons_self _ _))
    simp only [mergeLoop]
    by_cases ho : piiOverlaps c n = true
    · rw [if_pos ho]
      have hkeepc := ih c hs' (fun y hy => Nat.le_trans hcn (hn y hy))
        (fun y hy => by
          rcases List.mem_cons.mp hy with h | h
          · exact h ▸ hnec
          · exact hne y (List.mem_cons_of_mem _ (List.mem_cons_of_mem _ h)))
      have hkeepn := ih n hs' hn
        (fun y hy => hne y (List.mem_cons_of_mem _ hy))
      split_ifs
      · exact hkeepc
      · exact hkeepn
      · exact hkeepn
      · exact hkeepc
    · rw [if_neg ho]
      obtain ⟨ihs, ihp⟩ := ih n hs' hn
        (fun y hy => hne y (List.mem_cons_of_mem _ hy))
      have hstart : ∀ x ∈ mergeLoop n rest, n.span_start ≤ x.span_start := by
        intro x hx
        rcases mergeLoop_mem hx with h | h
        · exact h ▸ Nat.le_refl _
        · exact hn x h
      have hce : c.span_end ≤ n.span_start := by
        have hof : piiOverlaps c n = false := eq_false_of_ne_true ho
        unfold piiOverlaps at hof
        split_ifs at hof with hcond
        rcases hcond with h | h
        · exact h
        · omega
      constructor
      · exact List.pairwise_cons.mpr
          ⟨fun x hx => Nat.le_trans hcn (hstart x hx), ihs⟩
      · exact List.pairwise_cons.mpr
          ⟨fun x hx => Or.inl (Nat.le_trans hce (hstart x hx)), ihp⟩

/-- C8 (amended): for every candidate list whose redactions have nonempty
spans — the only kind the two detectors produce — the merged list is sorted
by `span_start` in nondecreasing order and pairwise non-overlapping. -/
theorem merge_redactions_sorted_non_overlapping (rs : List PIIRedaction)
    (hne : ∀ r ∈ rs, r.span_start < r.span_end) :
    (merge_redactions rs).Sorted startLE ∧
      (merge_redactions rs).Pairwise piiNonOvP := by
  unfold merge_redactions
  rcases hsort : sortByStart rs with _ | ⟨c, rest⟩
  · constructor <;> simp
  · have hsorted : (c :: rest).Sorted startLE := by
      rw [← hsort]
      exact List.sorted_insertionSort startLE rs
    have hmem : ∀ y ∈ c :: rest, y ∈ rs := by
      intro y hy
      have hy' : y ∈ sortByStart rs := by rw [hsort]; exact hy
      simpa [sortByStart, List.mem_insertionSort] using hy'
    exact mergeLoop_sorted_nonov rest c hsorted.of_cons
      (List.rel_of_sorted_cons hsorted) (fun y hy => hne y (hmem y hy))

/-- Closed witness for C8: a concrete nonempty-span candidate list. -/
theorem merge_redactions_sorted_non_overlapping_witness :
    (merge_redactions [mergeNerOverlap, mergeRegexLong, mergeInner]).Sorted startLE ∧
      (merge_redactions [mergeNerOverlap, mergeRegexLong, mergeInner]).Pairwise
        piiNonOvP :=
  merge_redactions_sorted_non_overlapping _ (by decide)

/-! ### Claim C3 — merge tie-break -/

/-- C3 counterexample: in a three-candidate chain, a pattern-method (regex)
candidate that overlaps a model-method (ner) candidate is dropped and the
ner candidate survives: `[9,11)` (regex) is eliminated by the longer regex
`[0,10)` during the sweep, then `[10,20)` (ner) no longer overlaps the
running candidate and is kept — so the merged result for the overlap
`[10,11)` carries `detection_method = "ner"`, not `"regex"`. -/
theorem merge_tie_break_counterexample :
    piiOverlaps mergeRegexShort mergeNer = true ∧
      mergeRegexShort.detection_method = "regex" ∧
      mergeNer.detection_method = "ner" ∧
      merge_redactions [mergeRegexLong, mergeRegexShort, mergeNer] =
        [mergeRegexLong, mergeNer] ∧
      mergeRegexShort ∉ merge_redactions [mergeRegexLong, mergeRegexShort, mergeNer] ∧
      mergeNer ∈ merge_redactions [mergeRegexLong, mergeRegexShort, mergeNer] := by
  refine ⟨by decide, by decide, by decide, by decide, by decide, by decide⟩

/-- The sweep on exactly two candidates, written out. -/
theorem mergeLoop_pair (x y : PIIRedaction) :
    mergeLoop x [y] =
      if piiOverlaps x y = true then
        if x.detection_method = "regex" ∧ y.detection_method = "ner" then [x]
        else if x.detection_method = "ner" ∧ y.detection_method = "regex" then [y]
        else if x.span_end - x.span_start < y.span_end - y.span_start then [y]
        else [x]
      else [x, y] := by
  simp only [mergeLoop]

/-- Python's stable sort on a two-element list. -/
theorem sortByStart_pair (x y : PIIRedaction) :
    sortByStart [x, y] =
      if x.span_start ≤ y.span_start then [x, y] else [y, x] := by
  simp only [sortByStart, List.insertionSort, List.orderedInsert, startLE]

/-- C3 (amended): the tie-break holds pairwise — when `merge_redactions`
receives exactly the two overlapping candidates, in either order: a
pattern-method (regex) candidate beats a model-method (ner) one, and among
same-method candidates the strictly longer span wins.  (The original
universal form fails in longer chains, see
`merge_tie_break_counterexample`.) -/
theorem merge_tie_break_pairwise (a b : PIIRedaction)
    (hov : piiOverlaps a b = true) :
    ((a.detection_method = "regex" ∧ b.detection_method = "ner") →
        merge_redactions [a, b] = [a] ∧ merge_redactions [b, a] = [a]) ∧
      ((a.detection_method = b.detection_method ∧
          a.span_end - a.span_start < b.span_end - b.span_start) →
        merge_redactions [a, b] = [b] ∧ merge_redactions [b, a] = [b]) := by
  have hsym : piiOverlaps b a = true := by
    unfold piiOverlaps at hov ⊢
    by_cases hab : a.span_end ≤ b.span_start ∨ b.span_end ≤ a.span_start
    · rw [if_pos hab] at hov
      exact absurd hov (by simp)
    · rw [if_neg (fun h => hab (Or.symm h))]
  have mergeAB : ∀ x y : PIIRedaction, merge_redactions [x, y] =
      if x.span_start ≤ y.span_start then mergeLoop x [y] else mergeLoop y [x] := by
    intro x y
    unfold merge_redactions
    rw [sortByStart_pair]
    by_cases hle : x.span_start ≤ y.span_start
    · rw [if_pos hle, if_pos hle]
    · rw [if_neg hle, if_neg hle]
  constructor
  · rintro ⟨ha, hb⟩
    have hone : mergeLoop a [b] = [a] := by
      rw [mergeLoop_pair, if_pos hov, if_pos ⟨ha, hb⟩]
    have htwo : mergeLoop b [a] = [a] := by
      rw [mergeLoop_pair, if_pos hsym,
        if_neg (fun h => absurd (hb.symm.trans h.1) (by decide)),
        if_pos ⟨hb, ha⟩]
    constructor
    · rw [mergeAB]
      split_ifs <;> [exact hone; exact htwo]
    · rw [mergeAB]
      split_ifs <;> [exact htwo; exact hone]
  · rintro ⟨hm, hlen⟩
    have hone : mergeLoop a [b] = [b] := by
      rw [mergeLoop_pair, if_pos hov,
        if_neg (fun h => absurd (h.1.symm.trans (hm.trans h.2)) (by decide)),
        if_neg (fun h => absurd (h.1.symm.trans (hm.trans h.2)) (by decide)),
        if_pos hlen]
    have htwo : mergeLoop b [a] = [b] := by
      rw [mergeLoop_pair, if_pos hsym,
        if_neg (fun h => absurd (h.1.symm.trans (hm.symm.trans h.2)) (by decide)),
        if_neg (fun h => absurd (h.1.symm.trans (hm.symm.trans h.2)) (by decide)),
        if_neg (Nat.lt_asymm hlen)]
    constructor
    · rw [mergeAB]
      split_ifs <;> [exact hone; exact htwo]
    · rw [mergeAB]
      split_ifs <;> [exact htwo; exact hone]

/-- Closed witness for C3 (amended): a concrete overlapping regex/ner pair
in both orders, plus a concrete same-method pair with a longer second
span. -/
theorem merge_tie_break_pairwise_witness :
    merge_redactions [mergeRegexLong, mergeNerOverlap] = [mergeRegexLong] ∧
      merge_redactions [mergeNerOverlap, mergeRegexLong] = [mergeRegexLong] :=
  (merge_tie_break_pairwise mergeRegexLong mergeNerOverlap (by decide)).1
    (by constructor <;> decide)

/-! ### Claim C7 — redaction application -/

/-- C7 counterexample: the output of `apply_redactions` can still contain
the original matched substring when it also occurs outside the redacted
span: redacting `[0,1)` of `"aa"` yields `"[PII_EMAIL]a"`, which contains
the matched substring `"a"`. -/
theorem apply_redactions_counterexample :
    apply_redactions "aa".toList [applyFirstA] = "[PII_EMAIL]a".toList ∧
      ("aa".toList.drop applyFirstA.span_start).take
          (applyFirstA.span_end - applyFirstA.span_start) = "a".toList ∧
      ∃ u v, u ++ "a".toList ++ v = apply_redactions "aa".toList [applyFirstA] :=
  ⟨by decide, by decide, "[PII_EMAIL]".toList, [], by decide⟩

/-- Splitting lemma: when every listed span starts at or after `q`, the
spec-side replacement from cursor `p ≤ q` is the untouched segment
`[p, q)` followed by the replacement from cursor `q`. -/
theorem rbs_take_from (t : List Char) (A : List PIIRedaction) (p q : Nat)
    (hpq : p ≤ q) (hA : ∀ x ∈ A, q ≤ x.span_start) :
    replacedBySpans t A p = (t.drop p).take (q - p) ++ replacedBySpans t A q := by
  have hdq : (t.drop p).drop (q - p) = t.drop q := by
    rw [List.drop_drop]
    congr 1
    omega
  cases A with
  | nil =>
    simp only [replacedBySpans]
    rw [← hdq]
    exact (List.take_append_drop (q - p) (t.drop p)).symm
  | cons x rest =>
    simp only [replacedBySpans]
    have hx : q ≤ x.span_start := hA x (List.mem_cons_self _ _)
    have hsplit : (t.drop p).take (x.span_start - p) =
        (t.drop p).take (q - p) ++ (t.drop q).take (x.span_start - q) := by
      have h1 : x.span_start - p = (q - p) + (x.span_start - q) := by omega
      rw [h1, List.take_add, hdq]
    rw [hsplit]
    simp [List.append_assoc]

/-- Spec-side containment: every listed redaction's placeholder occurs as a
contiguous segment of the replacement. -/
theorem rbs_contains (t : List Char) :
    ∀ (A : List PIIRedaction) (pos : Nat) (r : PIIRedaction), r ∈ A →
      ∃ u v, u ++ r.redacted ++ v = replacedBySpans t A pos := by
  intro A
  induction A with
  | nil => intro pos r hr; exact absurd hr (List.not_mem_nil r)
  | cons x rest ih =>
    intro pos r hr
    rcases List.mem_cons.mp hr with h | h
    · subst h
      exact ⟨(t.drop pos).take (r.span_start - pos),
        replacedBySpans t rest r.span_end, by simp [replacedBySpans]⟩
    · obtain ⟨u, v, huv⟩ := ih x.span_end r h
      refine ⟨(t.drop pos).take (x.span_start - pos) ++ x.redacted ++ u, v, ?_⟩
      simp only [replacedBySpans, ← huv, List.append_assoc]

/-- Pairwise distinct starts follow from nonempty spans plus pairwise
non-overlap. -/
theorem distinct_starts (rs : List PIIRedaction)
    (hb : ∀ r ∈ rs, r.span_start < r.span_end) (hp : rs.Pairwise piiNonOvP) :
    rs.Pairwise (fun a b => a.span_start ≠ b.span_start) := by
  refine hp.imp_of_mem ?_
  intro a b ha hb' hab heq
  rcases hab with h | h
  · have h1 := hb a ha
    unfold piiNonOvP at *
    omega
  · have h1 := hb b hb'
    omega

/-- With pairwise distinct starts, the two stable sorts are reverses of one
another (both orders are then unique). -/
theorem sortDesc_reverse_eq (rs : List PIIRedaction)
    (hd : rs.Pairwise (fun a b => a.span_start ≠ b.span_start)) :
    (sortByStartDesc rs).reverse = sortByStart rs := by
  have hsymne : Symmetric (fun a b : PIIRedaction => a.span_start ≠ b.span_start) :=
    fun _ _ h => h.symm
  have hperm1 : (sortByStartDesc rs).reverse.Perm rs :=
    (List.reverse_perm _).trans (List.perm_insertionSort startGE rs)
  have hperm2 : (sortByStart rs).Perm rs := List.perm_insertionSort startLE rs
  have hrev : (sortByStartDesc rs).reverse.Sorted startLE := by
    have hdsorted : (sortByStartDesc rs).Sorted startGE :=
      List.sorted_insertionSort _ _
    exact (List.pairwise_reverse).mpr hdsorted
  have hne1 : (sortByStartDesc rs).reverse.Pairwise
      (fun a b => a.span_start ≠ b.span_start) :=
    (List.Perm.pairwise_iff @hsymne hperm1).mpr hd
  have hne2 : (sortByStart rs).Pairwise
      (fun a b => a.span_start ≠ b.span_start) :=
    (List.Perm.pairwise_iff @hsymne hperm2).mpr hd
  have hstrict1 : (sortByStartDesc rs).reverse.Sorted startLT :=
    (hrev.and hne1).imp (fun {a b} h => Nat.lt_of_le_of_ne h.1 h.2)
  have hstrict2 : (sortByStart rs).Sorted startLT :=
    ((List.sorted_insertionSort startLE rs).and hne2).imp
      (fun {a b} h => Nat.lt_of_le_of_ne h.1 h.2)
  exact List.eq_of_perm_of_sorted (hperm1.trans hperm2.symm) hstrict1 hstrict2

/-- Folding the per-redaction splice from the right over an ascending,
non-overlapping, in-bounds list computes the spec-side replacement. -/
theorem foldr_replacedBySpans (t : List Char) :
    ∀ (A : List PIIRedaction), A.Sorted startLE → A.Pairwise piiNonOvP →
      (∀ r ∈ A, r.span_start < r.span_end ∧ r.span_end ≤ t.length) →
      A.foldr (fun r text =>
          text.take r.span_start ++ r.redacted ++ text.drop r.span_end) t =
        replacedBySpans t A 0 := by
  intro A
  induction A with
  | nil =>
    intro _ _ _
    simp [replacedBySpans]
  | cons r rest ih =>
    intro hs hp hb
    obtain ⟨hpr, hp'⟩ := List.pairwise_cons.mp hp
    have hb' : ∀ x ∈ rest, x.span_start < x.span_end ∧ x.span_end ≤ t.length :=
      fun x hx => hb x (List.mem_cons_of_mem _ hx)
    have hrb := hb r (List.mem_cons_self _ _)
    have hafter : ∀ x ∈ rest, r.span_end ≤ x.span_start := by
      intro x hx
      rcases hpr x hx with h | h
      · exact h
      · have hle : r.span_start ≤ x.span_start := List.rel_of_sorted_cons hs x hx
        have hxb := (hb' x hx).1
        omega
    simp only [List.foldr_cons]
    rw [ih hs.of_cons hp' hb']
    have hsplit : replacedBySpans t rest 0 =
        t.take r.span_end ++ replacedBySpans t rest r.span_end := by
      have h0 := rbs_take_from t rest 0 r.span_end (Nat.zero_le _) hafter
      simpa using h0
    rw [hsplit]
    have hlen : (t.take r.span_end).length = r.span_end := by
      rw [List.length_take]
      omega
    have htake : (t.take r.span_end ++ replacedBySpans t rest r.span_end).take
        r.span_start = t.take r.span_start := by
      rw [List.take_append_of_le_length (by omega)]
      rw [List.take_take]
      congr 1
      omega
    have hdrop : (t.take r.span_end ++ replacedBySpans t rest r.span_end).drop
        r.span_end = replacedBySpans t rest r.span_end := by
      rw [List.drop_append_of_le_length (by omega)]
      rw [List.drop_eq_nil_of_le (by omega)]
      rfl
    rw [htake, hdrop]
    simp [replacedBySpans]

/-- C7 (amended): for every text and every pairwise non-overlapping,
in-bounds set of redactions with nonempty spans, `apply_redactions`
(descending-start application) equals the original text with each
redaction's span replaced by its placeholder token (the spec-side
`replacedBySpans` over the ascending order), and the output contains every
placeholder token.  The original matched substring no longer occupies its
span, though it may still occur elsewhere in the text (see
`apply_redactions_counterexample`); empty spans sharing a start with
another span are excluded (they shift later same-start replacements). -/
theorem apply_redactions_spec (t : List Char) (rs : List PIIRedaction)
    (hb : ∀ r ∈ rs, r.span_start < r.span_end ∧ r.span_end ≤ t.length)
    (hp : rs.Pairwise piiNonOvP) :
    apply_redactions t rs = replacedBySpans t (sortByStart rs) 0 ∧
      ∀ r ∈ rs, ∃ u v, u ++ r.redacted ++ v = apply_redactions t rs := by
  have hmain : apply_redactions t rs = replacedBySpans t (sortByStart rs) 0 := by
    cases rs with
    | nil => simp [apply_redactions, replacedBySpans, sortByStart, List.insertionSort]
    | cons r0 rest0 =>
      have happly : apply_redactions t (r0 :: rest0) =
          (sortByStartDesc (r0 :: rest0)).foldl
            (fun text r =>
              text.take r.span_start ++ r.redacted ++ text.drop r.span_end) t := rfl
      have hdistinct := distinct_starts _ (fun r hr => (hb r hr).1) hp
      have hbridge := sortDesc_reverse_eq _ hdistinct
      have hfold : (sortByStartDesc (r0 :: rest0)).foldl
          (fun text r =>
            text.take r.span_start ++ r.redacted ++ text.drop r.span_end) t =
          (sortByStart (r0 :: rest0)).foldr
            (fun r text =>
              text.take r.span_start ++ r.redacted ++ text.drop r.span_end) t := by
        have h1 := List.foldl_reverse (l := (sortByStartDesc (r0 :: rest0)).reverse)
          (f := fun text r =>
            text.take r.span_start ++ r.redacted ++ text.drop r.span_end) (b := t)
        rw [List.reverse_reverse] at h1
        rw [h1, hbridge]
      rw [happly, hfold]
      have hsym : Symmetric piiNonOvP := fun _ _ h => Or.symm h
      have hpairs : (sortByStart (r0 :: rest0)).Pairwise piiNonOvP :=
        (List.Perm.pairwise_iff @hsym (List.perm_insertionSort startLE _)).mpr hp
      have hbs : ∀ r ∈ sortByStart (r0 :: rest0),
          r.span_start < r.span_end ∧ r.span_end ≤ t.length := by
        intro r hr
        refine hb r ?_
        have : r ∈ List.insertionSort startLE (r0 :: rest0) := hr
        exact (List.mem_insertionSort startLE).mp this
      exact foldr_replacedBySpans t _ (List.sorted_insertionSort startLE _) hpairs hbs
  refine ⟨hmain, ?_⟩
  intro r hr
  obtain ⟨u, v, huv⟩ := rbs_contains t (sortByStart rs) 0 r
    ((List.mem_insertionSort startLE).mpr hr)
  exact ⟨u, v, by rw [hmain, ← huv]⟩

/-- Closed witness for C7 (amended): a concrete single-redaction set. -/
theorem apply_redactions_spec_witness :
    apply_redactions "aa".toList [applyFirstA] =
        replacedBySpans "aa".toList (sortByStart [applyFirstA]) 0 ∧
      ∀ r ∈ [applyFirstA], ∃ u v,
        u ++ r.redacted ++ v = apply_redactions "aa".toList [applyFirstA] :=
  apply_redactions_spec "aa".toList [applyFirstA] (by decide) (by decide)

/-! ### Claim C9 — PII hash behaviour -/

/-- One compression round preserves the state length. -/
theorem shaRound_length (w st : List Nat) (i : Nat) :
    (shaRound w st i).length = st.length := by
  unfold shaRound
  rcases st with _ | ⟨a, _ | ⟨b, _ | ⟨c, _ | ⟨d, _ | ⟨e, _ | ⟨f, _ | ⟨g, _ |
    ⟨hh, _ | ⟨x, xs⟩⟩⟩⟩⟩⟩⟩⟩⟩ <;> rfl

/-- The 64-round loop preserves the state length. -/
theorem foldl_shaRound_length (w : List Nat) (l : List Nat) :
    ∀ st : List Nat, (l.foldl (shaRound w) st).length = st.length := by
  induction l with
  | nil => intro st; rfl
  | cons i rest ih => intro st; rw [List.foldl_cons, ih, shaRound_length]

/-- Chunk compression preserves the state length. -/
theorem shaCompress_length (h c : List Nat) : (shaCompress h c).length = h.length := by
  unfold shaCompress
  rw [List.length_map, List.length_zip, foldl_shaRound_length]
  omega

/-- Folding compression over the chunks preserves the state length. -/
theorem foldl_shaCompress_length (cs : List (List Nat)) :
    ∀ h : List Nat, (cs.foldl shaCompress h).length = h.length := by
  induction cs with
  | nil => intro h; rfl
  | cons c rest ih => intro h; rw [List.foldl_cons, ih, shaCompress_length]

/-- A SHA-256 digest always has eight words. -/
theorem sha256Words_length (msg : List Nat) : (sha256Words msg).length = 8 := by
  unfold sha256Words
  rw [foldl_shaCompress_length]
  rfl

/-- One word renders as eight hex digits. -/
theorem wordToHex_length (n : Nat) : (wordToHex n).length = 8 := by
  simp [wordToHex]

/-- A hexdigest always has 64 characters. -/
theorem sha256Hex_length (msg : List Nat) : (sha256Hex msg).length = 64 := by
  unfold sha256Hex
  rw [List.length_flatten, List.map_map]
  have hmap : (sha256Words msg).map (List.length ∘ wordToHex) =
      (sha256Words msg).map (fun _ => 8) :=
    List.map_congr_left (fun a _ => wordToHex_length a)
  have hconst : (sha256Words msg).map (fun _ => (8 : Nat)) =
      List.replicate (sha256Words msg).length 8 := List.map_const _ _
  rw [hmap, hconst, sha256Words_length]
  decide

/-- The truncated PII hash always has exactly 16 characters. -/
theorem hashPii_length (salt v : List Char) : (hashPii salt v).length = 16 := by
  unfold hashPii
  rw [List.length_take, sha256Hex_length]
  omega

/-- Hex digits of values below 16 are lowercase hex characters. -/
theorem toHexChar_isHex : ∀ n < 16, isHexDigit (toHexChar n) = true := by decide

/-- Every character of a hexdigest is a lowercase hex digit. -/
theorem sha256Hex_hex (msg : List Nat) : ∀ c ∈ sha256Hex msg, isHexDigit c = true := by
  intro c hc
  unfold sha256Hex at hc
  rw [List.mem_flatten] at hc
  obtain ⟨l, hl, hcl⟩ := hc
  rw [List.mem_map] at hl
  obtain ⟨wv, _, rfl⟩ := hl
  unfold wordToHex at hcl
  rw [List.mem_map] at hcl
  obtain ⟨i, _, rfl⟩ := hcl
  exact toHexChar_isHex _ (Nat.lt_succ_of_le (Nat.and_le_right))

/-- Every character of the truncated PII hash is a lowercase hex digit. -/
theorem hashPii_hex (salt v : List Char) :
    ∀ c ∈ hashPii salt v, isHexDigit c = true :=
  fun c hc => sha256Hex_hex _ c (List.mem_of_mem_take hc)

/-- `hexVal` is injective on lowercase hex digits. -/
theorem hexVal_inj {a b : Char} (ha : isHexDigit a = true)
    (hb : isHexDigit b = true) (h : hexVal a = hexVal b) : a = b := by
  unfold isHexDigit at ha hb
  split_ifs at ha with h1
  split_ifs at hb with h2
  have hval := congrArg Fin.val h
  unfold hexVal at hval
  simp only at hval
  have htn : a.toNat = b.toNat := by
    rcases h1 with h1 | h1 <;> rcases h2 with h2 | h2 <;> split_ifs at hval <;> omega
  exact Char.ext (UInt32.ext htn)

/-- C9 counterexample: the claim's universal salt-sensitivity is
impossible — the truncated hash takes at most `16^16` values over the
infinitely many salts, so by the pigeonhole principle two distinct salts
give the same hash of the same value (even though no explicit collision is
feasible to exhibit). -/
theorem hash_salt_collision_exists :
    ¬ (∀ s1 s2 : List Char, s1 ≠ s2 →
        hashPii s1 "mario.rossi@example.com".toList ≠
          hashPii s2 "mario.rossi@example.com".toList) := by
  intro hinj
  obtain ⟨s1, s2, hne, heq⟩ :=
    Finite.exists_ne_map_eq_of_infinite (hashCode "mario.rossi@example.com".toList)
  apply hinj s1 s2 hne
  apply List.ext_get (by rw [hashPii_length, hashPii_length])
  intro n hn1 hn2
  have hn : n < 16 := by rw [hashPii_length] at hn1; exact hn1
  have hcode := congrFun heq ⟨n, hn⟩
  unfold hashCode at hcode
  have hga : (hashPii s1 "mario.rossi@example.com".toList).getD n 'x' =
      (hashPii s1 "mario.rossi@example.com".toList).get ⟨n, hn1⟩ := by
    rw [List.getD_eq_getElem _ _ hn1]
    simp [List.get_eq_getElem]
  have hgb : (hashPii s2 "mario.rossi@example.com".toList).getD n 'x' =
      (hashPii s2 "mario.rossi@example.com".toList).get ⟨n, hn2⟩ := by
    rw [List.getD_eq_getElem _ _ hn2]
    simp [List.get_eq_getElem]
  rw [hga, hgb] at hcode
  exact hexVal_inj
    (hashPii_hex s1 _ _ (List.get_mem _ _ _))
    (hashPii_hex s2 _ _ (List.get_mem _ _ _)) hcode

/-- C9 (amended): the PII hash is deterministic (it is a pure function of
value and salt — hashing the same value twice under the same salt yields
the same 16 characters), always consists of exactly 16 lowercase
hexadecimal characters, and is non-degenerate: distinct salts and distinct
values are exhibited that change the hash.  Universal distinctness over all
salt or value pairs is impossible for a 16-hex-character truncation
(`hash_salt_collision_exists`). -/
theorem hash_pii_behaviour :
    (∀ v salt : List Char, hashPii salt v = hashPii salt v) ∧
      (∀ v salt : List Char, (hashPii salt v).length = 16 ∧
        ∀ c ∈ hashPii salt v, isHexDigit c = true) ∧
      hashPii "salt-one-0123456789".toList "mario.rossi@example.com".toList ≠
        hashPii "salt-two-0123456789".toList "mario.rossi@example.com".toList ∧
      hashPii wSalt "text1@example.com".toList ≠
        hashPii wSalt "text2@example.com".toList :=
  ⟨fun _ _ => rfl,
   fun v salt => ⟨hashPii_length salt v, hashPii_hex salt v⟩,
   by decide, by decide⟩

/-- Closed witness for C9 (amended): the hex-digit property instantiated at
a concrete character of a concrete hash. -/
theorem hash_pii_behaviour_witness :
    (hashPii wSalt "x".toList).length = 16 ∧
      isHexDigit ((hashPii wSalt "x".toList).getD 0 'a') = true :=
  ⟨(hash_pii_behaviour.2.1 "x".toList wSalt).1,
   (hash_pii_behaviour.2.1 "x".toList wSalt).2 _ (by decide)⟩

end TTPre
